import Mathlib

/-!
Verification of the csv-schema-validator validation engine.

This file gives a shallow embedding, in Lean 4, of the schema model and
validation engine found in `src/csv_schema_validator/validators.py`,
`schemas.py` and `monitoring_schemas.py`, and proves properties of that
embedding.

Conventions of the embedding:

* Python strings are Lean `String`s; the models of the CPython standard
  library helpers (`str.strip`, `int()`, `float()`, `uuid.UUID`,
  `json.loads`, `datetime.strptime`, `urllib.parse.urlparse`) cover the
  ASCII fragment these CSV validators operate on (Python additionally
  accepts some non-ASCII digit and whitespace characters; that extra
  generality is noted where relevant and affects no theorem below).
* A CSV cell produced by `csv.DictReader` is `Option String`:
  `none` is Python's `None` rest-value placeholder for short rows.
* Fallible Python operations are embedded as `Option`/`Except` values;
  an exception caught by a `try/except` is a `none`/`.error` result.
* Regular-expression matching (`re.match`) is an external component of
  the engine; it is threaded through the embedding as an oracle
  `reMatch : String → String → Option Bool` where `reMatch p v = none`
  models `re.error` (invalid pattern) and `some b` models a successful
  compile with match outcome `b`.
* Python `set` iteration order is unspecified (string hashing is
  randomized); functions that iterate a set take the enumeration as an
  explicit list argument, constrained by `setEnumOk` in the theorems.
* The human-readable `description`/`suggestion` message texts are kept
  in abbreviated form (example text and quoting punctuation elided);
  no property below depends on message wording.  The
  `validation_timestamp` and `execution_time_ms` fields of
  `ValidationResult`, and the `description`/`examples` documentation
  attributes of `SchemaField`, carry no validation content and are
  omitted from the embedded records.
-/

/-! ## Python string primitives -/

/-- Whitespace recognised by Python `str.strip()` / `int()` / `float()`
(ASCII fragment). -/
def isPyWs (c : Char) : Bool :=
  c == ' ' || c == '\t' || c == '\n' || c == '\r' || c == '\x0b' || c == '\x0c'

/-- Remove the characters satisfying `p` from both ends of a character
list: the model of Python `str.strip(chars)`. -/
def stripList (p : Char → Bool) (cs : List Char) : List Char :=
  ((cs.dropWhile p).reverse.dropWhile p).reverse

/-- Model of Python `str.strip()` (no argument): strip whitespace from
both ends. -/
def pyStrip (s : String) : String :=
  String.mk (stripList isPyWs s.data)

/-- Model of Python `str.lower()` on the ASCII fragment. -/
def pyLower (s : String) : String :=
  String.mk (s.data.map Char.toLower)

/-- Model of Python `str(value)` on a CSV cell: `None` stringifies to
the four-character string `None`. -/
def pyStr : Option String → String
  | none => "None"
  | some s => s

/-- Python truthiness of a CSV cell (`not value` in the source): `None`
and the empty string are falsy, every other string is truthy. -/
def pyFalsy : Option String → Bool
  | none => true
  | some s => s == ""

/-- Split a character list at the first character satisfying `p`,
returning the parts before and after it. -/
def splitOnceP (p : Char → Bool) : List Char → Option (List Char × List Char)
  | [] => none
  | x :: xs =>
    if p x then some ([], xs)
    else (splitOnceP p xs).map (fun q => (x :: q.1, q.2))

/-- ASCII hexadecimal digit. -/
def isHexDigitC (c : Char) : Bool :=
  c.isDigit || ('a' ≤ c && c ≤ 'f') || ('A' ≤ c && c ≤ 'F')

/-- Numeric value of an ASCII decimal digit. -/
def d2n (c : Char) : Nat := c.toNat - 48

/-- Recogniser for the Python numeric-literal digit-group grammar
`digit (underscore? digit)*`: at least one digit, and each underscore
standing strictly between two digits (this is what allows `1_000` as a
Python `int`). `isD` selects the digit alphabet (decimal or hex). -/
def digitsURest (isD : Char → Bool) : List Char → Bool
  | [] => true
  | c :: cs =>
    if c == '_' then
      match cs with
      | [] => false
      | c' :: cs' => isD c' && digitsURest isD cs'
    else isD c && digitsURest isD cs

/-- Entry point of the digit-group grammar: see `digitsURest`. -/
def digitsU (isD : Char → Bool) : List Char → Bool
  | [] => false
  | c :: cs => isD c && digitsURest isD cs

/-- Drop one optional leading sign character, returning whether it was
a minus and the rest. -/
def dropSign (cs : List Char) : Bool × List Char :=
  match cs with
  | [] => (false, [])
  | c :: r =>
    if c == '+' then (false, r)
    else if c == '-' then (true, r)
    else (false, c :: r)

/-! ## Model of Python `int(value)` (base 10) -/

/-- Model of CPython (3.11+) `int(value)` on an ASCII string: optional
surrounding whitespace, one optional sign, then a base-10 digit group
with optional single underscores between digits, holding at most 4300
digits — the default `sys.int_info.default_max_str_digits` conversion
limit, which this program never changes; underscores, the sign and the
whitespace do not count towards the limit (behaviour confirmed against
CPython 3.11).  A failure to parse, including the over-limit
`ValueError`, is the `none` that the source's
`except (ValueError, TypeError)` turns into `False`. -/
def pyIntVal (s : String) : Option Int :=
  let cs := stripList isPyWs s.data
  let (neg, ds) := dropSign cs
  if digitsU Char.isDigit ds &&
      decide ((ds.filter (fun c => c != '_')).length ≤ 4300) then
    let n : Nat := (ds.filter (fun c => c != '_')).foldl (fun a c => 10 * a + d2n c) 0
    some (if neg then -(n : Int) else (n : Int))
  else none

/-- Embedding of `CSVSchemaValidator._is_valid_integer`. -/
def is_valid_integer (value : String) : Bool :=
  (pyIntVal value).isSome

/-! ## Model of Python `float(value)` -/

/-- Mantissa part of a Python float literal: `digits`, `digits.`,
`digits.digits` or `.digits`, each digit group with Python underscore
grouping. -/
def floatMantOk (cs : List Char) : Bool :=
  match splitOnceP (fun c => c == '.') cs with
  | none => digitsU Char.isDigit cs
  | some (a, b) =>
    (a.isEmpty || digitsU Char.isDigit a) &&
    (b.isEmpty || digitsU Char.isDigit b) &&
    !(a.isEmpty && b.isEmpty)

/-- Model of CPython `float(value)` on an ASCII string: optional
surrounding whitespace, one optional sign, then either one of the
case-insensitive keywords `inf`, `infinity`, `nan`, or a decimal
mantissa with an optional exponent part. -/
def pyFloatParse (s : String) : Option Unit :=
  let cs := stripList isPyWs s.data
  let ds := (dropSign cs).2
  let low := ds.map Char.toLower
  if low == "inf".data || low == "infinity".data || low == "nan".data then
    some ()
  else
    match splitOnceP (fun c => c == 'e' || c == 'E') ds with
    | none => if floatMantOk ds then some () else none
    | some (m, ex) =>
      let ex' := (dropSign ex).2
      if floatMantOk m && digitsU Char.isDigit ex' then some () else none

/-- Embedding of `CSVSchemaValidator._is_valid_float`. -/
def is_valid_float (value : String) : Bool :=
  (pyFloatParse value).isSome

/-- Embedding of `CSVSchemaValidator._is_valid_boolean`:
`value.lower() in ["true", "false"]`. -/
def is_valid_boolean (value : String) : Bool :=
  pyLower value == "true" || pyLower value == "false"

/-! ## Model of Python `uuid.UUID(value)` -/

/-- Delete every (left-to-right, non-overlapping) occurrence of `pat`
from `s`: the model of Python `s.replace(pat, "")`.  Fuel-driven so the
definition reduces in the kernel; `fuel = s.length` always suffices
because each step consumes at least one character. -/
def pyReplaceDelAux (pat : List Char) : Nat → List Char → List Char
  | _, [] => []
  | 0, s => s
  | fuel + 1, c :: rest =>
    if !pat.isEmpty && pat.isPrefixOf (c :: rest) then
      pyReplaceDelAux pat fuel (List.drop (pat.length - 1) rest)
    else
      c :: pyReplaceDelAux pat fuel rest

/-- Model of Python `s.replace(pat, "")`. -/
def pyReplaceDel (pat s : List Char) : List Char :=
  pyReplaceDelAux pat s.length s

/-- Strip an optional `0x`/`0X` base marker, together with the one
underscore Python allows directly after it. -/
def hexBody : List Char → List Char
  | c0 :: c1 :: r =>
    if c0 == '0' && (c1 == 'x' || c1 == 'X') then
      match r with
      | c2 :: r' => if c2 == '_' then r' else r
      | [] => []
    else c0 :: c1 :: r
  | cs => cs

/-- Model of CPython `int(s, 16)`: optional surrounding whitespace, one
optional sign, an optional `0x`/`0X` base marker (an underscore may
directly follow it), then a hexadecimal digit group with Python
underscore grouping. -/
def pyHex16Ok (cs : List Char) : Bool :=
  digitsU isHexDigitC (hexBody (dropSign (stripList isPyWs cs)).2)

/-- Model of CPython `uuid.UUID(value)` construction from a hex string:
every occurrence of `urn:` and of `uuid:` is deleted, curly braces are
stripped from both ends, every hyphen is removed, and the remaining 32
characters must parse under `int(hex, 16)`.  (The subsequent
`0 <= int < 2**128` range check cannot fail here: after hyphen removal
no minus sign survives and 32 characters bound the value below
`2**128`.)  Parse failure is `none`, which the source's
`except (ValueError, TypeError)` turns into `False`. -/
def pyUuidParse (s : String) : Option Unit :=
  let h1 := pyReplaceDel "urn:".data s.data
  let h2 := pyReplaceDel "uuid:".data h1
  let h3 := stripList (fun c => c == '\x7b' || c == '\x7d') h2
  let h4 := h3.filter (fun c => c != '-')
  if h4.length == 32 && pyHex16Ok h4 then some () else none

/-- Embedding of `CSVSchemaValidator._is_valid_uuid`. -/
def is_valid_uuid (value : String) : Bool :=
  (pyUuidParse value).isSome

/-! ## Model of the email regular expression -/

/-- Character class of the local part of the source's email pattern. -/
def emailLocalChar (c : Char) : Bool :=
  c.isAlphanum || c == '.' || c == '_' || c == '%' || c == '+' || c == '-'

/-- Character class of the domain body of the source's email pattern. -/
def emailDomChar (c : Char) : Bool :=
  c.isAlphanum || c == '.' || c == '-'

/-- Domain part of the email pattern: some split `a ++ "." ++ t` with
`a` nonempty over the domain class and `t` at least two letters
(existence of a split is exactly what regex backtracking decides). -/
def emailDomOk (dom : List Char) : Bool :=
  (List.range dom.length).any (fun i =>
    dom.getD i ' ' == '.' && decide (0 < i) &&
    (dom.take i).all emailDomChar &&
    decide (2 ≤ dom.length - (i + 1)) &&
    (dom.drop (i + 1)).all Char.isAlpha)

/-- Full match of the source's email regular expression against a
character list. -/
def emailFull (cs : List Char) : Bool :=
  match splitOnceP (fun c => c == '@') cs with
  | none => false
  | some (loc, dom) =>
    !loc.isEmpty && loc.all emailLocalChar && emailDomOk dom

/-- Embedding of `CSVSchemaValidator._is_valid_email`: the anchored
pattern matched with `re.match`, whose final `$` also accepts one
trailing newline. -/
def is_valid_email (value : String) : Bool :=
  emailFull value.data ||
    (match value.data.reverse with
     | '\n' :: r => emailFull r.reverse
     | _ => false)

/-! ## Model of `urllib.parse.urlparse` scheme and netloc -/

/-- URL scheme validity per `urllib.parse`: a letter followed by
letters, digits, `+`, `-` or `.`. -/
def schemeOk : List Char → Bool
  | [] => false
  | c :: r => c.isAlpha && r.all (fun x => x.isAlphanum || x == '+' || x == '-' || x == '.')

/-- Embedding of `CSVSchemaValidator._is_valid_url`:
`all([result.scheme, result.netloc])` after `urlparse(value)`.
Modern `urlsplit` first performs the WHATWG cleanup: it strips leading
C0-control-or-space characters (code points up to 0x20) and deletes
every tab, carriage return and newline anywhere in the URL.  Then the
scheme must be present and well formed and the rest must start with
`//` followed by a nonempty netloc (delimited by `/`, `?` or `#`).  An
unmatched square bracket in the netloc makes `urlparse` raise, which
the source's `except Exception` turns into `False`. -/
def is_valid_url (value : String) : Bool :=
  let cleaned := (value.data.dropWhile (fun c => decide (c.toNat ≤ 0x20))).filter
    (fun c => !(c == '\t' || c == '\r' || c == '\n'))
  match splitOnceP (fun c => c == ':') cleaned with
  | none => false
  | some (sch, rest) =>
    schemeOk sch &&
    (match rest with
     | '/' :: '/' :: r =>
       let netloc := r.takeWhile (fun c => c != '/' && c != '?' && c != '#')
       if (netloc.contains '[' && !netloc.contains ']') ||
          (netloc.contains ']' && !netloc.contains '[') then
         false
       else
         !netloc.isEmpty
     | _ => false)

/-! ## Model of Python `json.loads` (top-level kind) -/

/-- Kind of a top-level JSON value, which is all the validators inspect
(`isinstance(parsed, list)` / `isinstance(parsed, dict)`). -/
inductive JKind
  | obj | arr | str | num | boolv | nullv
deriving DecidableEq

/-- JSON insignificant whitespace (`json.decoder` uses exactly space,
tab, newline, carriage return). -/
def jsonSkipWs (cs : List Char) : List Char :=
  cs.dropWhile (fun c => c == ' ' || c == '\t' || c == '\n' || c == '\r')

/-- Consume the remainder of a JSON string after its opening quote,
validating escapes; strict mode rejects unescaped control characters. -/
def jsonStrRest : List Char → Option (List Char)
  | [] => none
  | '"' :: r => some r
  | '\\' :: e :: r =>
    if e == '"' || e == '\\' || e == '/' || e == 'b' || e == 'f' ||
       e == 'n' || e == 'r' || e == 't' then
      jsonStrRest r
    else if e == 'u' then
      match r with
      | a :: b :: c :: d :: r' =>
        if isHexDigitC a && isHexDigitC b && isHexDigitC c && isHexDigitC d then
          jsonStrRest r'
        else none
      | _ => none
    else none
  | c :: r => if 0x20 ≤ c.toNat then jsonStrRest r else none

/-- Consume a JSON number token (after an already-consumed optional
minus sign): `0|[1-9][0-9]*`, optional `.digits`, optional exponent,
matching the greedy `NUMBER_RE` of `json.decoder`. -/
def jsonNumRest (cs : List Char) : Option (List Char) :=
  let intDone : Option (List Char) :=
    match cs with
    | '0' :: r => some r
    | c :: r => if c.isDigit then some (r.dropWhile Char.isDigit) else none
    | [] => none
  match intDone with
  | none => none
  | some r1 =>
    let r2 := match r1 with
      | '.' :: d :: rest =>
        if d.isDigit then rest.dropWhile Char.isDigit else r1
      | _ => r1
    let r3 := match r2 with
      | 'e' :: rest => jsonExpRest rest r2
      | 'E' :: rest => jsonExpRest rest r2
      | _ => r2
    some r3
where
  /-- Exponent tail after `e`/`E`: optional sign then at least one
  digit, otherwise the exponent group is not consumed at all. -/
  jsonExpRest (afterE orig : List Char) : List Char :=
    let body := (dropSign afterE).2
    match body with
    | c :: _ => if c.isDigit then body.dropWhile Char.isDigit else orig
    | [] => orig

/-- Outcome of one JSON parse step: a parsed value's kind with the
unconsumed suffix, a syntax failure (the `json.JSONDecodeError` the
checkers catch), or a recursion-depth overflow (the `RecursionError`
that `json.loads` raises on deeply nested input and that the checkers
do not catch). -/
inductive JPRes
  | ok (k : JKind) (rest : List Char)
  | fail
  | deep
deriving DecidableEq

mutual
/-- Depth-aware fuel-driven recursive-descent validator for a JSON
value, returning its top-level kind and the unconsumed suffix.
`limit` models the interpreter's recursion budget (environment
dependent, by default about 1000): parsing a value nested more than
`limit` containers deep is the `RecursionError` result `.deep`.  Fuel
`2 * length + 2` always suffices because every two recursion steps
consume a character; the fuel-exhaustion arm is unreachable at that
fuel. -/
def jsonValD : Nat → Nat → Nat → List Char → JPRes
  | _, 0, _, _ => .fail
  | limit, fuel + 1, depth, cs =>
    if limit < depth then .deep
    else
      match cs with
      | [] => .fail
      | '"' :: r =>
        (match jsonStrRest r with
         | some rest => .ok JKind.str rest
         | none => .fail)
      | '\x7b' :: r => jsonObjTailD limit fuel depth (jsonSkipWs r)
      | '[' :: r => jsonArrTailD limit fuel depth (jsonSkipWs r)
      | 't' :: 'r' :: 'u' :: 'e' :: r => .ok JKind.boolv r
      | 'f' :: 'a' :: 'l' :: 's' :: 'e' :: r => .ok JKind.boolv r
      | 'n' :: 'u' :: 'l' :: 'l' :: r => .ok JKind.nullv r
      | 'N' :: 'a' :: 'N' :: r => .ok JKind.num r
      | 'I' :: 'n' :: 'f' :: 'i' :: 'n' :: 'i' :: 't' :: 'y' :: r => .ok JKind.num r
      | '-' :: 'I' :: 'n' :: 'f' :: 'i' :: 'n' :: 'i' :: 't' :: 'y' :: r => .ok JKind.num r
      | '-' :: r =>
        (match jsonNumRest r with
         | some rest => .ok JKind.num rest
         | none => .fail)
      | c :: _ =>
        if c.isDigit then
          (match jsonNumRest cs with
           | some rest => .ok JKind.num rest
           | none => .fail)
        else .fail
termination_by structural limit fuel depth cs => fuel

/-- After `[` and whitespace: a closing bracket or the first element
(parsed one level deeper). -/
def jsonArrTailD : Nat → Nat → Nat → List Char → JPRes
  | _, 0, _, _ => .fail
  | limit, fuel + 1, depth, cs =>
    match cs with
    | ']' :: r => .ok JKind.arr r
    | _ =>
      match jsonValD limit fuel (depth + 1) cs with
      | .ok _ rest => jsonArrMoreD limit fuel depth (jsonSkipWs rest)
      | .fail => .fail
      | .deep => .deep
termination_by structural limit fuel depth cs => fuel

/-- After an element and whitespace: `,` and another element, or `]`. -/
def jsonArrMoreD : Nat → Nat → Nat → List Char → JPRes
  | _, 0, _, _ => .fail
  | limit, fuel + 1, depth, cs =>
    match cs with
    | ']' :: r => .ok JKind.arr r
    | ',' :: r =>
      (match jsonValD limit fuel (depth + 1) (jsonSkipWs r) with
       | .ok _ rest => jsonArrMoreD limit fuel depth (jsonSkipWs rest)
       | .fail => .fail
       | .deep => .deep)
    | _ => .fail
termination_by structural limit fuel depth cs => fuel

/-- After the opening brace and whitespace: a closing brace or the
first key. -/
def jsonObjTailD : Nat → Nat → Nat → List Char → JPRes
  | _, 0, _, _ => .fail
  | limit, fuel + 1, depth, cs =>
    match cs with
    | '\x7d' :: r => .ok JKind.obj r
    | '"' :: r => jsonObjPairD limit fuel depth r
    | _ => .fail
termination_by structural limit fuel depth cs => fuel

/-- Key string tail, `:` and value (one level deeper), then continue
with the member list. -/
def jsonObjPairD : Nat → Nat → Nat → List Char → JPRes
  | _, 0, _, _ => .fail
  | limit, fuel + 1, depth, cs =>
    match jsonStrRest cs with
    | none => .fail
    | some afterKey =>
      match jsonSkipWs afterKey with
      | ':' :: r =>
        (match jsonValD limit fuel (depth + 1) (jsonSkipWs r) with
         | .ok _ rest => jsonObjMoreD limit fuel depth (jsonSkipWs rest)
         | .fail => .fail
         | .deep => .deep)
      | _ => .fail
termination_by structural limit fuel depth cs => fuel

/-- After a member and whitespace: `,` and another key, or `}`. -/
def jsonObjMoreD : Nat → Nat → Nat → List Char → JPRes
  | _, 0, _, _ => .fail
  | limit, fuel + 1, depth, cs =>
    match cs with
    | '\x7d' :: r => .ok JKind.obj r
    | ',' :: r =>
      (match jsonSkipWs r with
       | '"' :: r2 => jsonObjPairD limit fuel depth r2
       | _ => .fail)
    | _ => .fail
termination_by structural limit fuel depth cs => fuel
end

/-- Faithful model of `json.loads(value)` reduced to the top-level
kind, at recursion budget `limit`: `.ok (some k)` is a completed parse
of a value of kind `k`, `.ok none` is `json.JSONDecodeError`
(including the trailing `Extra data` check), and `.error ()` is the
`RecursionError` raised on input nested deeper than the budget. -/
def jsonTopKindD (limit : Nat) (s : String) : Except Unit (Option JKind) :=
  match jsonValD limit (2 * s.length + 2) 0 (jsonSkipWs s.data) with
  | .ok k rest => .ok (if (jsonSkipWs rest).isEmpty then some k else none)
  | .fail => .ok none
  | .deep => .error ()

/-- Outcome of `json.loads(value)` when the parse completes within the
recursion budget: since a value's nesting depth never exceeds the
number of its consumed characters, the budget `s.length + 1` can never
be hit, so the `RecursionError` arm below is unreachable.  This is the
total top-level-kind function the engine's boolean checkers are built
from; the `RecursionError` path itself is kept in `jsonTopKindD` and
in `json_array_checker`/`json_object_checker`. -/
def jsonTopKind (s : String) : Option JKind :=
  match jsonTopKindD (s.length + 1) s with
  | .ok k => k
  | .error _ => none

/-- Embedding of `CSVSchemaValidator._is_valid_json_array`. -/
def is_valid_json_array (value : String) : Bool :=
  jsonTopKind value == some JKind.arr

/-- Embedding of `CSVSchemaValidator._is_valid_json_object`. -/
def is_valid_json_object (value : String) : Bool :=
  jsonTopKind value == some JKind.obj

/-- Faithful model of `_is_valid_json_array` including its exception
path: a parse that completes decides the boolean (a decode failure is
the caught `JSONDecodeError`, hence `Except.ok false`), while a
recursion-depth overflow is a `RecursionError`, which the source's
`except (json.JSONDecodeError, TypeError)` clause does not catch — it
escapes the checker as `.error`. -/
def json_array_checker (limit : Nat) (value : String) : Except Unit Bool :=
  match jsonTopKindD limit value with
  | .ok k => .ok (k == some JKind.arr)
  | .error e => .error e

/-- Decidable equality for `Except` outcomes, so that concrete checker
results can be computed by `decide`. -/
instance {e a : Type} [DecidableEq e] [DecidableEq a] : DecidableEq (Except e a) :=
  fun x y =>
    match x, y with
    | Except.ok u, Except.ok w =>
      if h : u = w then isTrue (h ▸ rfl) else isFalse (fun hh => h (Except.ok.inj hh))
    | Except.error u, Except.error w =>
      if h : u = w then isTrue (h ▸ rfl) else isFalse (fun hh => h (Except.error.inj hh))
    | Except.ok _, Except.error _ => isFalse (fun hh => Except.noConfusion hh)
    | Except.error _, Except.ok _ => isFalse (fun hh => Except.noConfusion hh)

/-- Faithful model of `_is_valid_json_object` including its exception
path; see `json_array_checker`. -/
def json_object_checker (limit : Nat) (value : String) : Except Unit Bool :=
  match jsonTopKindD limit value with
  | .ok k => .ok (k == some JKind.obj)
  | .error e => .error e

/-! ## Model of `datetime.strptime` for the four fallback formats -/

/-- Format directives occurring in the source's `common_formats`:
four-digit year, one-or-two-digit month/day/hour/minute/second with the
CPython `_strptime` regex alternations, a 1-6 digit `%f` fraction, and
literal characters. -/
inductive FTok
  | lit (c : Char)
  | Y | M | D | HH | MI | SS | F

/-- Parsed time fields (CPython defaults: 1900-01-01 00:00:00). -/
structure TF where
  y : Nat := 1900
  mo : Nat := 1
  dy : Nat := 1
  hh : Nat := 0
  mi : Nat := 0
  ss : Nat := 0
deriving DecidableEq

/-- Store a directive's parsed value (`%f` and literals store nothing). -/
def setTF : FTok → Nat → TF → TF
  | .Y, v, t => { t with y := v }
  | .M, v, t => { t with mo := v }
  | .D, v, t => { t with dy := v }
  | .HH, v, t => { t with hh := v }
  | .MI, v, t => { t with mi := v }
  | .SS, v, t => { t with ss := v }
  | _, _, t => t

/-- Two-digit alternatives of each CPython `_strptime` directive regex
(`%m`: `1[0-2]|0[1-9]`, `%d`: `3[01]|[12]\d|0[1-9]`,
`%H`: `2[0-3]|[0-1]\d`, `%M`: `[0-5]\d`, `%S`: `6[0-1]|[0-5]\d`). -/
def twoDigitOk : FTok → Nat → Bool
  | .M, v => decide (1 ≤ v) && decide (v ≤ 12)
  | .D, v => decide (1 ≤ v) && decide (v ≤ 31)
  | .HH, v => decide (v ≤ 23)
  | .MI, v => decide (v ≤ 59)
  | .SS, v => decide (v ≤ 61)
  | _, _ => false

/-- One-digit alternatives (`%m`, `%d`: `[1-9]`; `%H`, `%M`, `%S`: `\d`). -/
def oneDigitOk : FTok → Nat → Bool
  | .M, v => decide (1 ≤ v)
  | .D, v => decide (1 ≤ v)
  | .HH, _ => true
  | .MI, _ => true
  | .SS, _ => true
  | _, _ => false

/-- Backtracking matcher for a directive list against a character list,
mirroring the regex CPython `_strptime` builds from the format string:
each two-digit numeric directive falls back to its one-digit
alternative, and `%f` greedily takes up to six digits.  The whole input
must be consumed (`unconverted data remains` check).  Fuel-driven and
structural so the kernel can evaluate it; `toks.length + 1` fuel always
suffices since every recursive call drops one directive. -/
def matchToks : Nat → List FTok → List Char → TF → Option TF
  | 0, _, _, _ => none
  | fuel + 1, toks, xs, tf =>
    match toks, xs with
    | [], [] => some tf
    | [], _ :: _ => none
    | .lit c :: ts, x :: r => if x == c then matchToks fuel ts r tf else none
    | .lit _ :: _, [] => none
    | .Y :: ts, a :: b :: c :: d :: r =>
      if a.isDigit && b.isDigit && c.isDigit && d.isDigit then
        matchToks fuel ts r
          (setTF .Y (1000 * d2n a + 100 * d2n b + 10 * d2n c + d2n d) tf)
      else none
    | .Y :: _, _ => none
    | .F :: ts, _ =>
      let att : Nat → Option TF := fun k =>
        if decide (k ≤ xs.length) && (xs.take k).all Char.isDigit then
          matchToks fuel ts (xs.drop k) tf
        else none
      ((((((att 6).orElse (fun _ => att 5)).orElse (fun _ => att 4)).orElse
        (fun _ => att 3)).orElse (fun _ => att 2)).orElse (fun _ => att 1))
    | t :: ts, ys =>
      let one : Option TF :=
        match ys with
        | x :: r =>
          if x.isDigit && oneDigitOk t (d2n x) then
            matchToks fuel ts r (setTF t (d2n x) tf)
          else none
        | [] => none
      match ys with
      | a :: b :: r =>
        if a.isDigit && b.isDigit && twoDigitOk t (10 * d2n a + d2n b) then
          match matchToks fuel ts r (setTF t (10 * d2n a + d2n b) tf) with
          | some res => some res
          | none => one
        else one
      | _ => one

/-- Gregorian leap year, as validated by the `datetime` constructor. -/
def isLeapYear (y : Nat) : Bool :=
  y % 4 == 0 && (y % 100 != 0 || y % 400 == 0)

/-- Days in a month of the proleptic Gregorian calendar. -/
def daysInMonth (y mo : Nat) : Nat :=
  if mo == 2 then (if isLeapYear y then 29 else 28)
  else if mo == 4 || mo == 6 || mo == 9 || mo == 11 then 30
  else 31

/-- Validity checks the `datetime` constructor adds on top of the
directive regexes: `MINYEAR <= year` (four digits already bound it by
9999), a day that exists in the month, and seconds at most 59 (the
`%S` regex admits the leap seconds 60 and 61 which `datetime` then
rejects).  Month, hour and minute ranges are already enforced by the
directive regexes. -/
def datetimeCtorOk (t : TF) : Bool :=
  decide (1 ≤ t.y) && decide (t.dy ≤ daysInMonth t.y t.mo) && decide (t.ss ≤ 59)

/-- Model of `datetime.strptime(value, fmt) ` succeeding for one of the
embedded formats. -/
def strptimeOk (toks : List FTok) (s : String) : Bool :=
  match matchToks (toks.length + 1) toks s.data {} with
  | some t => datetimeCtorOk t
  | none => false

/-- Directive list of `"%Y-%m-%d %H:%M:%S.%f"`. -/
def fmtYmdHmsF : List FTok :=
  [.Y, .lit '-', .M, .lit '-', .D, .lit ' ', .HH, .lit ':', .MI, .lit ':', .SS, .lit '.', .F]

/-- Directive list of `"%Y-%m-%d %H:%M:%S"`. -/
def fmtYmdHms : List FTok :=
  [.Y, .lit '-', .M, .lit '-', .D, .lit ' ', .HH, .lit ':', .MI, .lit ':', .SS]

/-- Directive list of `"%Y-%m-%dT%H:%M:%S.%fZ"`. -/
def fmtIsoF : List FTok :=
  [.Y, .lit '-', .M, .lit '-', .D, .lit 'T', .HH, .lit ':', .MI, .lit ':', .SS, .lit '.', .F, .lit 'Z']

/-- Directive list of `"%Y-%m-%dT%H:%M:%SZ"`. -/
def fmtIso : List FTok :=
  [.Y, .lit '-', .M, .lit '-', .D, .lit 'T', .HH, .lit ':', .MI, .lit ':', .SS, .lit 'Z']

/-- The source's `common_formats` fallback loop: try the four formats
in order and succeed if any parses (the boolean outcome is the
disjunction; the order only determines which format succeeds first). -/
def tryCommonFormats (value : String) : Bool :=
  strptimeOk fmtYmdHmsF value || strptimeOk fmtYmdHms value ||
    strptimeOk fmtIsoF value || strptimeOk fmtIso value

/-- Embedding of `CSVSchemaValidator._is_valid_datetime`.  `reMatch` is
the `re.match` oracle: `reMatch p v = none` models `re.error`, in which
case the source falls through to the format loop; a non-`None`,
nonempty pattern that compiles decides the result by itself
(`return bool(re.match(pattern, value))`). -/
def is_valid_datetime (reMatch : String → String → Option Bool)
    (value : String) (pattern : Option String) : Bool :=
  match pattern with
  | some p =>
    if p == "" then tryCommonFormats value
    else
      match reMatch p value with
      | some b => b
      | none => tryCommonFormats value
  | none => tryCommonFormats value

/-! ## Schema model (`schemas.py`) -/

/-- Embedding of `DataType` (`schemas.py`). -/
inductive DataType
  | STRING | INTEGER | FLOAT | BOOLEAN | UUID | DATETIME
  | JSON_ARRAY | JSON_OBJECT | URL | EMAIL
deriving DecidableEq

/-- The `.value` string of each `DataType` member. -/
def DataType.value : DataType → String
  | .STRING => "string"
  | .INTEGER => "integer"
  | .FLOAT => "float"
  | .BOOLEAN => "boolean"
  | .UUID => "uuid"
  | .DATETIME => "datetime"
  | .JSON_ARRAY => "json_array"
  | .JSON_OBJECT => "json_object"
  | .URL => "url"
  | .EMAIL => "email"

/-- Embedding of the `SchemaField` dataclass.  `default_value` holds
Python `None` as `none`; the engine only ever asks whether it is set,
so the non-string defaults (`0`, `False`) of the concrete schemas are
carried as their `str()` renderings.  The documentation-only
`description` and `examples` attributes are omitted. -/
structure SchemaField where
  name : String
  data_type : DataType
  required : Bool := true
  nullable : Bool := true
  default_value : Option String := none
  format_pattern : Option String := none
deriving DecidableEq

/-- Embedding of `SchemaField.__post_init__`: dataclass construction
runs the invariant check and raises `ValueError` (here `Except.error`)
for a required, non-nullable field without a default value whose type
is not one of the auto-generated types `{UUID, DATETIME}`. -/
def SchemaField.make (name : String) (data_type : DataType)
    (required nullable : Bool) (default_value : Option String)
    (format_pattern : Option String) : Except String SchemaField :=
  if !nullable && required && default_value == none &&
     !(data_type == DataType.UUID || data_type == DataType.DATETIME) then
    Except.error ("Field " ++ name ++ " is required and non-nullable but has no default value")
  else
    Except.ok { name, data_type, required, nullable, default_value, format_pattern }

/-! ## Validation issues and results (`validators.py`) -/

/-- Embedding of the `ValidationIssue` dataclass. -/
structure ValidationIssue where
  field_name : String
  issue_type : String
  severity : String
  description : String
  expected_value : Option String := none
  actual_value : Option String := none
  row_number : Option Nat := none
  suggestion : Option String := none
deriving DecidableEq

/-- Embedding of the `ValidationResult` dataclass (timing fields
omitted, see the header note). -/
structure ValidationResult where
  file_path : String
  schema_name : String
  is_valid : Bool
  total_rows : Nat
  total_columns : Nat
  issues : List ValidationIssue
  missing_columns : List String
  extra_columns : List String
deriving DecidableEq

/-- Embedding of the derived `ValidationResult.error_count` property:
computed from `issues` on demand, not stored. -/
def ValidationResult.error_count (r : ValidationResult) : Nat :=
  (r.issues.filter (fun i => i.severity == "error")).length

/-- Embedding of the derived `ValidationResult.warning_count` property. -/
def ValidationResult.warning_count (r : ValidationResult) : Nat :=
  (r.issues.filter (fun i => i.severity == "warning")).length

/-- Embedding of the derived `ValidationResult.info_count` property. -/
def ValidationResult.info_count (r : ValidationResult) : Nat :=
  (r.issues.filter (fun i => i.severity == "info")).length

/-! ## The validation engine -/

/-- A parsed CSV row as produced by `csv.DictReader`: an association
list from column name to cell, where a `none` cell is the `None`
rest-value a short row gets for its missing columns. -/
def Row := List (String × Option String)

/-- Model of `row.get(column_name, "")`: an absent key yields the
empty string, a present key yields the stored cell (possibly `None`). -/
def rowGet (r : Row) (k : String) : Option String :=
  match List.lookup k r with
  | some v => v
  | none => some ""

/-- Embedding of `CSVSchemaValidator._validate_single_value`: dispatch
on the field's `data_type` and emit one `invalid_<type>` error issue
when the type checker rejects the value.  `reMatch` is the `re.match`
oracle used by the DateTime checker. -/
def validate_single_value (reMatch : String → String → Option Bool)
    (column_name value : String) (field : SchemaField)
    (row_number : Nat) : List ValidationIssue :=
  if value == "" || pyLower value == "null" then []
  else
    match field.data_type with
    | .UUID =>
      if !is_valid_uuid value then
        [{ field_name := column_name, issue_type := "invalid_uuid", severity := "error",
           description := "Invalid UUID format in field " ++ column_name,
           actual_value := some value, row_number := some row_number,
           suggestion := some "Provide a valid UUID" }]
      else []
    | .EMAIL =>
      if pyLower value != "null" && !is_valid_email value then
        [{ field_name := column_name, issue_type := "invalid_email", severity := "error",
           description := "Invalid email format in field " ++ column_name,
           actual_value := some value, row_number := some row_number,
           suggestion := some "Provide a valid email address" }]
      else []
    | .URL =>
      if pyLower value != "null" && !is_valid_url value then
        [{ field_name := column_name, issue_type := "invalid_url", severity := "error",
           description := "Invalid URL format in field " ++ column_name,
           actual_value := some value, row_number := some row_number,
           suggestion := some "Provide a valid URL" }]
      else []
    | .DATETIME =>
      if !is_valid_datetime reMatch value field.format_pattern then
        [{ field_name := column_name, issue_type := "invalid_datetime", severity := "error",
           description := "Invalid datetime format in field " ++ column_name,
           actual_value := some value, row_number := some row_number,
           expected_value := field.format_pattern,
           suggestion := some "Use format YYYY-MM-DD HH:MM:SS.mmm" }]
      else []
    | .JSON_ARRAY =>
      if !is_valid_json_array value then
        [{ field_name := column_name, issue_type := "invalid_json_array", severity := "error",
           description := "Invalid JSON array format in field " ++ column_name,
           actual_value := some value, row_number := some row_number,
           suggestion := some "Provide valid JSON array" }]
      else []
    | .JSON_OBJECT =>
      if !is_valid_json_object value then
        [{ field_name := column_name, issue_type := "invalid_json_object", severity := "error",
           description := "Invalid JSON object format in field " ++ column_name,
           actual_value := some value, row_number := some row_number,
           suggestion := some "Provide valid JSON object" }]
      else []
    | .INTEGER =>
      if !is_valid_integer value then
        [{ field_name := column_name, issue_type := "invalid_integer", severity := "error",
           description := "Invalid integer format in field " ++ column_name,
           actual_value := some value, row_number := some row_number,
           suggestion := some "Provide a valid integer" }]
      else []
    | .FLOAT =>
      if !is_valid_float value then
        [{ field_name := column_name, issue_type := "invalid_float", severity := "error",
           description := "Invalid float format in field " ++ column_name,
           actual_value := some value, row_number := some row_number,
           suggestion := some "Provide a valid float" }]
      else []
    | .BOOLEAN =>
      if !is_valid_boolean value then
        [{ field_name := column_name, issue_type := "invalid_boolean", severity := "error",
           description := "Invalid boolean format in field " ++ column_name,
           actual_value := some value, row_number := some row_number,
           suggestion := some "Use true or false" }]
      else []
    | .STRING => []

/-- Issues one loop iteration of
`CSVSchemaValidator._validate_column_data` contributes for the cell at
0-based row index `row_idx`: the required/nullable null check first
(with its `continue`), the null skip second, the type dispatch last. -/
def cell_issues (reMatch : String → String → Option Bool)
    (column_name : String) (field : SchemaField)
    (row_idx : Nat) (value : Option String) : List ValidationIssue :=
  if field.required && !field.nullable &&
     (pyFalsy value || pyStrip (pyStr value) == "" ||
      pyLower (pyStrip (pyStr value)) == "null") then
    [{ field_name := column_name, issue_type := "required_field_missing", severity := "error",
       description := "Required field " ++ column_name ++ " is missing or null",
       row_number := some (row_idx + 2),
       actual_value := some (pyStr value),
       suggestion := some ("Provide a valid " ++ field.data_type.value ++ " value") }]
  else
    let str_value := pyStrip (pyStr value)
    if str_value == "" || pyLower str_value == "null" then []
    else validate_single_value reMatch column_name str_value field (row_idx + 2)

/-- Embedding of `CSVSchemaValidator._validate_column_data`: iterate
the column's cells in file order, collecting each row's issues. -/
def validate_column_data (reMatch : String → String → Option Bool)
    (column_name : String) (column_data : List (Option String))
    (field : SchemaField) : List ValidationIssue :=
  (column_data.enum.map (fun p => cell_issues reMatch column_name field p.1 p.2)).flatten

/-- Model of the `self.schema_fields` dict lookup: a dict built by
comprehension keeps the last field carrying a given name. -/
def findField (schema : List SchemaField) (cn : String) : Option SchemaField :=
  schema.reverse.find? (fun f => f.name == cn)

/-- Names of the schema's fields (the keys of `self.schema_fields`). -/
def schemaFieldNames (schema : List SchemaField) : List String :=
  schema.map (fun f => f.name)

/-- Embedding of `CSVSchemaValidator._validate_data_content`.
`commonOrder` is the iteration order of the Python set
`set(csv_data[0].keys()) & set(self.schema_fields.keys())`; it is
passed explicitly because set order is unspecified, and is constrained
by `setEnumOk` in the theorems.  Each common column's cells are
extracted with `row.get(column_name, "")` in file order. -/
def validate_data_content (reMatch : String → String → Option Bool)
    (schema : List SchemaField) (commonOrder : List String)
    (csv_data : List Row) : List ValidationIssue :=
  commonOrder.flatMap (fun cn =>
    match findField schema cn with
    | some f =>
      validate_column_data reMatch cn (csv_data.map (fun r => rowGet r cn)) f
    | none => [])

/-- The issue built for one missing required column. -/
def missingColumnIssue (col : String) : ValidationIssue :=
  { field_name := col, issue_type := "missing_column", severity := "error",
    description := "Required column " ++ col ++ " is missing from CSV",
    suggestion := some ("Add column " ++ col ++ " to the CSV file") }

/-- The issue built for one unexpected extra column. -/
def extraColumnIssue (col : String) : ValidationIssue :=
  { field_name := col, issue_type := "extra_column", severity := "warning",
    description := "Unexpected column " ++ col ++ " found in CSV",
    suggestion := some ("Remove column " ++ col ++ " or update schema") }

/-- Embedding of `CSVSchemaValidator._check_missing_columns`:
`[col for col in self.required_columns if col not in csv_column_set]`.
`reqOrder` is the iteration order of the Python set
`{field.name for field in schema if field.required}`, passed explicitly
because set order is unspecified. -/
def check_missing_columns (reqOrder csv_columns : List String) : List String :=
  reqOrder.filter (fun col => !csv_columns.contains col)

/-- Embedding of `CSVSchemaValidator._check_extra_columns`: header
columns absent from the schema's field-name set, in header order. -/
def check_extra_columns (schema : List SchemaField)
    (csv_columns : List String) : List String :=
  csv_columns.filter (fun col => !(schemaFieldNames schema).contains col)

/-- Column names of the first parsed row (`csv_data[0].keys()`), or
none if there are no data rows. -/
def dataColumns (csv_data : List Row) : List String :=
  match csv_data with
  | [] => []
  | r :: _ => r.map (fun p => p.1)

/-- The successfully-parsed branch of `CSVSchemaValidator.validate_file`:
missing-column issues, then extra-column issues, then data-content
issues; `is_valid` is computed from the collected issues. -/
def validate_parsed (reMatch : String → String → Option Bool)
    (schema : List SchemaField) (reqOrder commonOrder : List String)
    (file_path schema_name : String)
    (csv_columns : List String) (csv_data : List Row) : ValidationResult :=
  let missing_columns := check_missing_columns reqOrder csv_columns
  let extra_columns := check_extra_columns schema csv_columns
  let issues :=
    missing_columns.map missingColumnIssue ++
    extra_columns.map extraColumnIssue ++
    validate_data_content reMatch schema commonOrder csv_data
  { file_path, schema_name,
    is_valid := (issues.filter (fun i => i.severity == "error")).length == 0,
    total_rows := csv_data.length,
    total_columns := csv_columns.length,
    issues, missing_columns, extra_columns }

/-- Outcome of reading and parsing the target file: the three branches
of `CSVSchemaValidator.validate_file` (missing file, `csv` module
failure caught by the `except`, successful parse into a header and
rows). -/
inductive FileOutcome
  | notFound
  | parseFailure (msg : String)
  | parsed (csv_columns : List String) (csv_data : List Row)

/-- Embedding of `CSVSchemaValidator.validate_file` over a file
outcome: a missing file yields the single `file_not_found` error
result, a parse failure the single `parse_error` error result, and a
successful parse runs the column and data checks. -/
def validate_file (reMatch : String → String → Option Bool)
    (schema : List SchemaField) (reqOrder commonOrder : List String)
    (file_path schema_name : String) (out : FileOutcome) : ValidationResult :=
  match out with
  | .notFound =>
    { file_path, schema_name, is_valid := false,
      total_rows := 0, total_columns := 0,
      issues := [{ field_name := "file", issue_type := "file_not_found",
                   severity := "error",
                   description := "File not found: " ++ file_path }],
      missing_columns := [], extra_columns := [] }
  | .parseFailure msg =>
    { file_path, schema_name, is_valid := false,
      total_rows := 0, total_columns := 0,
      issues := [{ field_name := "file", issue_type := "parse_error",
                   severity := "error",
                   description := "Error parsing CSV file: " ++ msg }],
      missing_columns := [], extra_columns := [] }
  | .parsed csv_columns csv_data =>
    validate_parsed reMatch schema reqOrder commonOrder file_path schema_name
      csv_columns csv_data

/-- Admissible iteration order of a Python set built from the elements
of `src`: each element exactly once, nothing else.  (Which order
actually occurs depends on the randomized string hashing.) -/
def setEnumOk (src enum : List String) : Bool :=
  enum.all (fun x => src.contains x) &&
  src.all (fun x => enum.contains x) &&
  enum.dedup == enum

/-! ## The concrete schema registries -/

/-- Embedding of `SELLER_SCHEMA` (`schemas.py`), validation-relevant attributes only. -/
def SELLER_SCHEMA : List SchemaField := [
  ⟨"seller_uuid", .UUID, true, false, none, none⟩,
  ⟨"seller_name", .STRING, true, true, some "null", none⟩,
  ⟨"profile_photo_url", .URL, true, true, some "null", none⟩,
  ⟨"seller_profile_url", .URL, true, true, none, none⟩,
  ⟨"seller_rating", .FLOAT, true, true, some "null", none⟩,
  ⟨"total_reviews", .INTEGER, true, true, some "null", none⟩,
  ⟨"contact_methods", .JSON_ARRAY, true, false, some "[]", none⟩,
  ⟨"email_address", .EMAIL, true, true, some "null", none⟩,
  ⟨"phone_number", .STRING, true, true, some "null", none⟩,
  ⟨"physical_address", .STRING, true, true, some "null", none⟩,
  ⟨"verification_status", .STRING, true, false, some "Unverified", none⟩,
  ⟨"seller_status", .STRING, true, false, some "New", none⟩,
  ⟨"enforcement_status", .STRING, true, false, some "None", none⟩,
  ⟨"map_compliance_status", .STRING, true, false, some "Compliant", none⟩,
  ⟨"associated_listings", .INTEGER, true, false, some "0", none⟩,
  ⟨"date_added", .DATETIME, true, false, none, some "^\\d\x7b4\x7d-\\d\x7b2\x7d-\\d\x7b2\x7d \\d\x7b2\x7d:\\d\x7b2\x7d:\\d\x7b2\x7d\\.\\d\x7b3\x7d$"⟩,
  ⟨"last_updated", .DATETIME, true, false, none, some "^\\d\x7b4\x7d-\\d\x7b2\x7d-\\d\x7b2\x7d \\d\x7b2\x7d:\\d\x7b2\x7d:\\d\x7b2\x7d\\.\\d\x7b3\x7d$"⟩,
  ⟨"blacklisted", .BOOLEAN, true, false, some "False", none⟩,
  ⟨"counterfeiter", .BOOLEAN, true, false, some "False", none⟩,
  ⟨"priority_seller", .BOOLEAN, true, false, some "False", none⟩,
  ⟨"seller_note", .STRING, true, true, some "", none⟩,
  ⟨"seller_id", .STRING, true, true, none, none⟩,
  ⟨"admin_priority_seller", .BOOLEAN, true, false, some "False", none⟩,
  ⟨"known_counterfeiter", .BOOLEAN, true, false, some "False", none⟩,
  ⟨"seller_admin_stage", .STRING, true, false, some "NA", none⟩,
  ⟨"seller_investigation", .STRING, true, false, some "NotStarted", none⟩,
  ⟨"seller_stage", .STRING, true, false, some "NA", none⟩,
  ⟨"seller_state", .STRING, true, false, some "Active", none⟩
]

/-- Embedding of `LISTING_SCHEMA` (`schemas.py`), validation-relevant attributes only. -/
def LISTING_SCHEMA : List SchemaField := [
  ⟨"listing_uuid", .UUID, true, false, none, none⟩,
  ⟨"product_uuid", .UUID, true, true, some "null", none⟩,
  ⟨"product_title", .STRING, true, true, none, none⟩,
  ⟨"product_image_urls", .JSON_ARRAY, true, true, some "[]", none⟩,
  ⟨"sku", .STRING, true, true, none, none⟩,
  ⟨"asin", .STRING, true, true, none, none⟩,
  ⟨"item_number", .STRING, true, true, none, none⟩,
  ⟨"price", .FLOAT, true, true, none, none⟩,
  ⟨"price_history", .JSON_ARRAY, true, true, some "[]", none⟩,
  ⟨"variation_attributes", .JSON_ARRAY, true, true, some "null", none⟩,
  ⟨"units_available", .INTEGER, true, true, some "null", none⟩,
  ⟨"units_sold", .INTEGER, true, true, some "null", none⟩,
  ⟨"listing_status", .STRING, true, false, some "New", none⟩,
  ⟨"seller_status", .STRING, true, false, some "New", none⟩,
  ⟨"enforcement_status", .STRING, true, false, some "None", none⟩,
  ⟨"map_compliance_status", .STRING, true, false, some "NA", none⟩,
  ⟨"amazon_buy_box_won", .STRING, true, false, some "No", none⟩,
  ⟨"date_first_detected", .DATETIME, true, false, none, some "^\\d\x7b4\x7d-\\d\x7b2\x7d-\\d\x7b2\x7d \\d\x7b2\x7d:\\d\x7b2\x7d:\\d\x7b2\x7d\\.\\d\x7b3\x7d$"⟩,
  ⟨"last_checked", .DATETIME, true, false, none, some "^\\d\x7b4\x7d-\\d\x7b2\x7d-\\d\x7b2\x7d \\d\x7b2\x7d:\\d\x7b2\x7d:\\d\x7b2\x7d\\.\\d\x7b3\x7d$"⟩,
  ⟨"authenticity", .STRING, true, false, some "Unverified", none⟩,
  ⟨"listing_note", .STRING, true, true, some "", none⟩,
  ⟨"marketplaceMarketplace_uuid", .UUID, true, true, none, none⟩,
  ⟨"parent_asin", .STRING, true, true, none, none⟩,
  ⟨"currency", .STRING, true, false, some "USD", none⟩,
  ⟨"brand_uuid", .UUID, true, true, none, none⟩,
  ⟨"enforce_admin_stage", .STRING, true, false, some "NotSubmitted", none⟩,
  ⟨"listing_enforcement", .STRING, true, false, some "NA", none⟩,
  ⟨"listing_priority", .BOOLEAN, true, false, some "False", none⟩,
  ⟨"listing_stage", .STRING, true, false, some "NA", none⟩,
  ⟨"re_listed_status", .BOOLEAN, true, false, some "False", none⟩,
  ⟨"listing_url", .URL, true, true, none, none⟩,
  ⟨"listing_state", .STRING, true, false, some "Active", none⟩,
  ⟨"brand_name", .STRING, true, true, none, none⟩
]

/-- Embedding of `SELLER_MONITORING_SCHEMA` (`monitoring_schemas.py`). -/
def SELLER_MONITORING_SCHEMA : List SchemaField := [
  ⟨"seller_uuid", .UUID, true, true, none, none⟩,
  ⟨"marketplace", .STRING, true, true, some "aliexpress", none⟩,
  ⟨"monitoring_status", .STRING, true, true, none, none⟩,
  ⟨"confidence_score", .FLOAT, true, true, none, none⟩,
  ⟨"status_reason", .STRING, true, true, none, none⟩,
  ⟨"evidence_hash", .STRING, true, true, none, none⟩,
  ⟨"last_checked_at", .DATETIME, true, true, none, some "^\\d\x7b4\x7d-\\d\x7b2\x7d-\\d\x7b2\x7d \\d\x7b2\x7d:\\d\x7b2\x7d:\\d\x7b2\x7d\\.\\d\x7b3\x7d$"⟩,
  ⟨"last_transition_at", .DATETIME, true, true, none, some "^\\d\x7b4\x7d-\\d\x7b2\x7d-\\d\x7b2\x7d \\d\x7b2\x7d:\\d\x7b2\x7d:\\d\x7b2\x7d\\.\\d\x7b3\x7d$"⟩,
  ⟨"check_count", .INTEGER, true, true, none, none⟩,
  ⟨"created_at", .DATETIME, true, true, none, some "^\\d\x7b4\x7d-\\d\x7b2\x7d-\\d\x7b2\x7d \\d\x7b2\x7d:\\d\x7b2\x7d:\\d\x7b2\x7d\\.\\d\x7b3\x7d$"⟩
]

/-- Embedding of `SELLER_MONITORING_EVENTS_SCHEMA` (`monitoring_schemas.py`). -/
def SELLER_MONITORING_EVENTS_SCHEMA : List SchemaField := [
  ⟨"event_uuid", .UUID, true, true, none, none⟩,
  ⟨"seller_uuid", .UUID, true, true, none, none⟩,
  ⟨"marketplace", .STRING, true, true, some "aliexpress", none⟩,
  ⟨"from_status", .STRING, true, true, none, none⟩,
  ⟨"to_status", .STRING, true, true, none, none⟩,
  ⟨"from_confidence", .FLOAT, true, true, none, none⟩,
  ⟨"to_confidence", .FLOAT, true, true, none, none⟩,
  ⟨"transition_reason", .STRING, true, true, none, none⟩,
  ⟨"evidence_hash", .STRING, true, true, none, none⟩,
  ⟨"created_at", .DATETIME, true, true, none, some "^\\d\x7b4\x7d-\\d\x7b2\x7d-\\d\x7b2\x7d \\d\x7b2\x7d:\\d\x7b2\x7d:\\d\x7b2\x7d\\.\\d\x7b3\x7d$"⟩
]

/-- Embedding of `get_schema_by_name` (`schemas.py`): case-insensitive
lookup in the seller/listing registry; an unknown name raises
`ValueError` (here `Except.error`). -/
def get_schema_by_name (schema_name : String) : Except String (List SchemaField) :=
  let schemas := [("seller", SELLER_SCHEMA), ("listing", LISTING_SCHEMA)]
  match List.lookup (pyLower schema_name) schemas with
  | some s => Except.ok s
  | none => Except.error ("Unknown schema: " ++ schema_name)

/-- Embedding of `get_monitoring_schema_by_name`
(`monitoring_schemas.py`): case-insensitive lookup, but via
`dict.get(name, [])`, so an unknown name returns the empty schema
instead of raising. -/
def get_monitoring_schema_by_name (schema_name : String) : List SchemaField :=
  let schemas := [("seller_monitoring", SELLER_MONITORING_SCHEMA),
                  ("seller_monitoring_events", SELLER_MONITORING_EVENTS_SCHEMA)]
  match List.lookup (pyLower schema_name) schemas with
  | some s => s
  | none => []

/-! ## Specification-side definitions

The two definitions below are written from the words of the
specification, not from the source, and exist only to be compared
against the source-derived checkers. -/

/-- Consume exactly `n` hexadecimal digits, returning the rest. -/
def hexSeg : Nat → List Char → Option (List Char)
  | 0, cs => some cs
  | _ + 1, [] => none
  | n + 1, c :: cs => if isHexDigitC c then hexSeg n cs else none

/-- Spec-side definition of the canonical hyphenated UUID form the
specification describes: 8-4-4-4-12 hexadecimal digits separated by
four hyphens, hex digits case-insensitive, nothing else. -/
def isCanonicalUuid (s : String) : Bool :=
  match hexSeg 8 s.data with
  | some ('-' :: r1) =>
    (match hexSeg 4 r1 with
     | some ('-' :: r2) =>
       (match hexSeg 4 r2 with
        | some ('-' :: r3) =>
          (match hexSeg 4 r3 with
           | some ('-' :: r4) =>
             (match hexSeg 12 r4 with
              | some [] => true
              | _ => false)
           | _ => false)
        | _ => false)
     | _ => false)
  | _ => false

/-- Spec-side definition of the integer grammar the claim describes:
an optional sign followed by base-10 digits and nothing else (no
separator characters of any kind). -/
def intClaimGrammar (v : String) : Bool :=
  let ds := (dropSign v.data).2
  !ds.isEmpty && ds.all Char.isDigit

/-- Split a character list on every occurrence of `c`; the result is
always nonempty and the separators are not kept. -/
def splitOnChar (c : Char) : List Char → List (List Char)
  | [] => [[]]
  | x :: xs =>
    match splitOnChar c xs with
    | [] => [[]]
    | g :: gs => if x == c then [] :: g :: gs else (x :: g) :: gs

/-- Spec-side rendering of the amended Integer claim: after optional
surrounding whitespace and one optional sign, the value splits on
underscores into nonempty all-digit groups (so every underscore stands
strictly between two digits, ruling out any other separator, interior
space or repeated sign), and carries at most 4300 digits in total (the
CPython string-to-int conversion limit). -/
def intAmendedGrammar (v : String) : Bool :=
  let ds := (dropSign (stripList isPyWs v.data)).2
  (splitOnChar '_' ds).all (fun g => !g.isEmpty && g.all Char.isDigit) &&
    decide ((ds.filter (fun c => c != '_')).length ≤ 4300)

/-! ## Theorems -/

/-- C8: constructing a `SchemaField` with `required = true`,
`nullable = false` and no `default_value` succeeds exactly when the
data type is UUID or DateTime (the auto-generated exemption), and
otherwise fails at construction time with an error. -/
theorem c8_construction_invariant (name : String) (dt : DataType) (fp : Option String) :
    ((∃ f, SchemaField.make name dt true false none fp = Except.ok f) ↔
      (dt = DataType.UUID ∨ dt = DataType.DATETIME))
    ∧ ((∃ e, SchemaField.make name dt true false none fp = Except.error e) ↔
      ¬(dt = DataType.UUID ∨ dt = DataType.DATETIME)) := by
  cases dt <;> simp [SchemaField.make]

/-- Dropping JSON whitespace from a run of opening brackets is the
identity. -/
theorem jsonSkipWs_replicate_lb (k : Nat) :
    jsonSkipWs (List.replicate k '[') = List.replicate k '[' := by
  cases k with
  | zero => rfl
  | succ j => rfl

/-- On a run of opening brackets the array-tail parser never sees `]`,
so it always descends into the element parser one level deeper. -/
theorem jsonArrTailD_replicate (limit fuel d k : Nat) :
    jsonArrTailD limit (fuel + 1) d (List.replicate k '[') =
      (match jsonValD limit fuel (d + 1) (List.replicate k '[') with
       | .ok _ rest => jsonArrMoreD limit fuel d (jsonSkipWs rest)
       | .fail => JPRes.fail
       | .deep => JPRes.deep) := by
  cases k with
  | zero => rfl
  | succ j => rfl

/-- Parsing `m` nested opening brackets from depth `d` overflows the
recursion budget exactly when the budget is less than `d + m`;
otherwise the input runs out and the parse merely fails. -/
theorem jsonValD_replicate (m : Nat) : ∀ (limit d : Nat),
    jsonValD limit (2 * m + 2) d (List.replicate m '[') =
      if limit < d + m then JPRes.deep else JPRes.fail := by
  induction m with
  | zero =>
    intro limit d
    rfl
  | succ k ih =>
    intro limit d
    rw [show 2 * (k + 1) + 2 = (2 * k + 3) + 1 from by omega, List.replicate_succ]
    have hstep : jsonValD limit ((2 * k + 3) + 1) d ('[' :: List.replicate k '[') =
        if limit < d then JPRes.deep
        else jsonArrTailD limit (2 * k + 3) d (jsonSkipWs (List.replicate k '[')) := rfl
    rw [hstep, jsonSkipWs_replicate_lb,
        show 2 * k + 3 = (2 * k + 2) + 1 from by omega,
        jsonArrTailD_replicate, ih limit (d + 1)]
    by_cases h : limit < d
    · rw [if_pos h, if_pos (show limit < d + (k + 1) from by omega)]
    · rw [if_neg h]
      by_cases h2 : limit < (d + 1) + k
      · rw [if_pos h2, if_pos (show limit < d + (k + 1) from by omega)]
      · rw [if_neg h2, if_neg (show ¬ limit < d + (k + 1) from by omega)]

/-- C9 counterexample: the claim says no exception escapes any
checker, but the JSON checkers catch only
`(json.JSONDecodeError, TypeError)`, and `json.loads` raises
`RecursionError` on deeply nested input: at recursion budget 1000,
1001 nested opening brackets make the array checker end in the
uncaught error instead of returning a boolean. -/
theorem c9_counterexample :
    json_array_checker 1000 (String.mk (List.replicate 1001 '[')) =
      Except.error () := by
  have hmain := jsonValD_replicate 1001 1000 0
  rw [if_pos (show (1000 : Nat) < 0 + 1001 from by omega)] at hmain
  have hj : jsonTopKindD 1000 (String.mk (List.replicate 1001 '[')) =
      Except.error () := by
    rw [jsonTopKindD]
    have hlen : (String.mk (List.replicate 1001 '[')).length = 1001 := by
      show (List.replicate 1001 '[').length = 1001
      rw [List.length_replicate]
    have hdata : (String.mk (List.replicate 1001 '[')).data =
        List.replicate 1001 '[' := rfl
    rw [hlen, hdata, jsonSkipWs_replicate_lb, hmain]
  rw [json_array_checker, hj]

/-- C9 amended: the non-JSON checkers are total with parse failures as
`false` returns and an uncompilable DateTime pattern falls back to the
format loop; the JSON checkers return `false` on input whose parse
fails within the recursion budget, but a `RecursionError` on deeper
nesting escapes their narrower `except` clause. -/
theorem c9_amended (v : String)
    (reMatch : String → String → Option Bool) (p : String) (limit : Nat) :
    (pyUuidParse v = none → is_valid_uuid v = false)
    ∧ (pyIntVal v = none → is_valid_integer v = false)
    ∧ (pyFloatParse v = none → is_valid_float v = false)
    ∧ (reMatch p v = none → is_valid_datetime reMatch v (some p) = tryCommonFormats v)
    ∧ (jsonTopKindD limit v = Except.ok none →
        json_array_checker limit v = Except.ok false ∧
        json_object_checker limit v = Except.ok false)
    ∧ (jsonTopKindD limit v = Except.error () →
        json_array_checker limit v = Except.error () ∧
        json_object_checker limit v = Except.error ()) := by
  refine ⟨fun h => ?_, fun h => ?_, fun h => ?_, fun h => ?_, fun h => ?_, fun h => ?_⟩
  · simp [is_valid_uuid, h]
  · simp [is_valid_integer, h]
  · simp [is_valid_float, h]
  · simp only [is_valid_datetime]
    split <;> simp [h]
  · constructor <;> simp [json_array_checker, json_object_checker, h]
  · constructor <;> simp [json_array_checker, json_object_checker, h]

/-- Witness for `c9_amended` at concrete inputs: the string `xyz`
fails the parsers with a `false` return (including the JSON checker at
budget 1000), and an uncompilable pattern falls back. -/
theorem c9_witness :
    pyUuidParse "xyz" = none ∧ is_valid_uuid "xyz" = false ∧
    jsonTopKindD 1000 "xyz" = Except.ok none ∧
    json_array_checker 1000 "xyz" = Except.ok false ∧
    is_valid_datetime (fun _ _ => none) "xyz" (some "(") = tryCommonFormats "xyz" :=
  ⟨by decide, (c9_amended "xyz" (fun _ _ => none) "(" 1000).1 (by decide),
   by decide,
   ((c9_amended "xyz" (fun _ _ => none) "(" 1000).2.2.2.2.1 (by decide)).1,
   (c9_amended "xyz" (fun _ _ => none) "(" 1000).2.2.2.1 rfl⟩

/-- C4 counterexample: looking up a name that is not registered in the
monitoring-schema registry does not fail with a hard error as the
claim states: `get_monitoring_schema_by_name` returns the ordinary
value `[]` (the `dict.get(..., [])` default). -/
theorem c4_counterexample :
    get_monitoring_schema_by_name "no_such_schema" = ([] : List SchemaField) := rfl

/-- C4 amended: both registries resolve names case-insensitively; the
main registry raises on an unknown name, while the monitoring registry
returns the empty schema instead of failing. -/
theorem c4_amended (s : String) :
    (pyLower s = "seller" → get_schema_by_name s = Except.ok SELLER_SCHEMA)
    ∧ (pyLower s = "listing" → get_schema_by_name s = Except.ok LISTING_SCHEMA)
    ∧ (pyLower s ≠ "seller" ∧ pyLower s ≠ "listing" →
        get_schema_by_name s = Except.error ("Unknown schema: " ++ s))
    ∧ (pyLower s = "seller_monitoring" →
        get_monitoring_schema_by_name s = SELLER_MONITORING_SCHEMA)
    ∧ (pyLower s = "seller_monitoring_events" →
        get_monitoring_schema_by_name s = SELLER_MONITORING_EVENTS_SCHEMA)
    ∧ (pyLower s ≠ "seller_monitoring" ∧ pyLower s ≠ "seller_monitoring_events" →
        get_monitoring_schema_by_name s = []) := by
  refine ⟨fun h => ?_, fun h => ?_, fun h => ?_, fun h => ?_, fun h => ?_, fun h => ?_⟩
  · simp [get_schema_by_name, List.lookup, h]
  · simp [get_schema_by_name, List.lookup, h]
  · have e1 := beq_eq_false_iff_ne.mpr h.1
    have e2 := beq_eq_false_iff_ne.mpr h.2
    simp [get_schema_by_name, List.lookup, e1, e2]
  · simp [get_monitoring_schema_by_name, List.lookup, h]
  · simp [get_monitoring_schema_by_name, List.lookup, h]
  · have e1 := beq_eq_false_iff_ne.mpr h.1
    have e2 := beq_eq_false_iff_ne.mpr h.2
    simp [get_monitoring_schema_by_name, List.lookup, e1, e2]

/-- Witness for `c4_amended`: a mixed-case known name resolves in each
registry, and unknown names take the two different failure paths. -/
theorem c4_witness :
    get_schema_by_name "SELLER" = Except.ok SELLER_SCHEMA ∧
    get_schema_by_name "nope" = Except.error ("Unknown schema: " ++ "nope") ∧
    get_monitoring_schema_by_name "Seller_Monitoring" = SELLER_MONITORING_SCHEMA ∧
    get_monitoring_schema_by_name "nope" = [] :=
  ⟨(c4_amended "SELLER").1 rfl,
   (c4_amended "nope").2.2.1 ⟨by decide, by decide⟩,
   (c4_amended "Seller_Monitoring").2.2.2.1 rfl,
   (c4_amended "nope").2.2.2.2.2 ⟨by decide, by decide⟩⟩

/-- C2: for a string cell whose trimmed value is empty or `null`
case-insensitively, a required non-nullable field gets exactly one
`required_field_missing` error at `rowNumber = row_idx + 2` and no type
check runs on the cell; for every other field the cell produces no
issue at all, regardless of the declared data type. -/
theorem c2_null_cell_handling (reMatch : String → String → Option Bool)
    (column_name : String) (field : SchemaField) (row_idx : Nat) (s : String)
    (hnull : pyStrip s = "" ∨ pyLower (pyStrip s) = "null") :
    (field.required = true → field.nullable = false →
      ∃ iss, cell_issues reMatch column_name field row_idx (some s) = [iss] ∧
        iss.issue_type = "required_field_missing" ∧ iss.severity = "error" ∧
        iss.field_name = column_name ∧ iss.row_number = some (row_idx + 2))
    ∧ (¬(field.required = true ∧ field.nullable = false) →
      cell_issues reMatch column_name field row_idx (some s) = []) := by
  constructor
  · intro hr hn
    have heq : cell_issues reMatch column_name field row_idx (some s) =
        [⟨column_name, "required_field_missing", "error",
          "Required field " ++ column_name ++ " is missing or null", none,
          some (pyStr (some s)), some (row_idx + 2),
          some ("Provide a valid " ++ field.data_type.value ++ " value")⟩] := by
      rcases hnull with h | h <;> simp [cell_issues, hr, hn, pyStr, pyFalsy, h]
    exact ⟨_, heq, rfl, rfl, rfl, rfl⟩
  · intro hno
    have hnul : field.required = true → field.nullable = true := by
      intro hr
      cases hn : field.nullable
      · exact absurd ⟨hr, hn⟩ hno
      · rfl
    cases hr : field.required
    · rcases hnull with h | h <;> simp [cell_issues, pyStr, pyFalsy, h, hr]
    · rcases hnull with h | h <;> simp [cell_issues, pyStr, pyFalsy, h, hr, hnul hr]

/-- Witness for `c2_null_cell_handling`: the all-caps cell `NULL` on a
required non-nullable UUID field yields the one missing-value error at
row 2, and the empty cell on a required nullable String field yields
nothing. -/
theorem c2_witness :
    (∃ iss, cell_issues (fun _ _ => none) "id"
        ⟨"id", DataType.UUID, true, false, none, none⟩ 0 (some "NULL") = [iss] ∧
      iss.issue_type = "required_field_missing" ∧ iss.severity = "error" ∧
      iss.field_name = "id" ∧ iss.row_number = some 2) ∧
    cell_issues (fun _ _ => none) "status"
      ⟨"status", DataType.STRING, true, true, none, none⟩ 2 (some "") = [] :=
  ⟨(c2_null_cell_handling (fun _ _ => none) "id"
      ⟨"id", DataType.UUID, true, false, none, none⟩ 0 "NULL"
      (Or.inr (by decide))).1 rfl rfl,
   (c2_null_cell_handling (fun _ _ => none) "status"
      ⟨"status", DataType.STRING, true, true, none, none⟩ 2 ""
      (Or.inl (by decide))).2 (by simp)⟩

/-- C10: a `None` cell (short row) is not treated as an empty string:
a required non-nullable field reports it as `required_field_missing`
with `actual_value = "None"`, and every other field stringifies it to
`None` and hands it to the type checker, so a nullable Integer column
gets an `invalid_integer` issue with actual value `None` instead of
the nullable-empty skip. -/
theorem c10_none_cell (reMatch : String → String → Option Bool)
    (column_name : String) (field : SchemaField) (row_idx : Nat) :
    (field.required = true → field.nullable = false →
      ∃ iss, cell_issues reMatch column_name field row_idx none = [iss] ∧
        iss.issue_type = "required_field_missing" ∧ iss.severity = "error" ∧
        iss.actual_value = some "None" ∧ iss.row_number = some (row_idx + 2))
    ∧ (¬(field.required = true ∧ field.nullable = false) →
      cell_issues reMatch column_name field row_idx none =
        validate_single_value reMatch column_name "None" field (row_idx + 2)
      ∧ (field.data_type = DataType.INTEGER →
          ∃ iss, cell_issues reMatch column_name field row_idx none = [iss] ∧
            iss.issue_type = "invalid_integer" ∧ iss.severity = "error" ∧
            iss.actual_value = some "None" ∧ iss.row_number = some (row_idx + 2))) := by
  have hstr : pyStrip (pyStr none) = "None" := by decide
  have hnone : ¬(pyLower "None" = "null") := by decide
  have hne : ¬("None" = "") := by decide
  constructor
  · intro hr hn
    have heq : cell_issues reMatch column_name field row_idx none =
        [⟨column_name, "required_field_missing", "error",
          "Required field " ++ column_name ++ " is missing or null", none,
          some (pyStr none), some (row_idx + 2),
          some ("Provide a valid " ++ field.data_type.value ++ " value")⟩] := by
      simp [cell_issues, hr, hn, pyFalsy]
    exact ⟨_, heq, rfl, rfl, rfl, rfl⟩
  · intro hno
    have hmain : cell_issues reMatch column_name field row_idx none =
        validate_single_value reMatch column_name "None" field (row_idx + 2) := by
      simp [cell_issues, hstr, hno, hnone, hne]
    refine ⟨hmain, fun hdt => ?_⟩
    have hval : validate_single_value reMatch column_name "None" field (row_idx + 2) =
        [⟨column_name, "invalid_integer", "error",
          "Invalid integer format in field " ++ column_name, none, some "None",
          some (row_idx + 2), some "Provide a valid integer"⟩] := by
      have hint : is_valid_integer "None" = false := by decide
      simp [validate_single_value, hdt, hint, hnone, hne]
    exact ⟨_, hmain.trans hval, rfl, rfl, rfl, rfl⟩

/-- Witness for `c10_none_cell`: a `None` cell on the required
non-nullable `listing_uuid` field is a missing-value error, and on a
required nullable Integer field it is an `invalid_integer` with actual
value `None`. -/
theorem c10_witness :
    (∃ iss, cell_issues (fun _ _ => none) "listing_uuid"
        ⟨"listing_uuid", DataType.UUID, true, false, none, none⟩ 0 none = [iss] ∧
      iss.issue_type = "required_field_missing" ∧ iss.severity = "error" ∧
      iss.actual_value = some "None" ∧ iss.row_number = some 2) ∧
    (∃ iss, cell_issues (fun _ _ => none) "total_reviews"
        ⟨"total_reviews", DataType.INTEGER, true, true, some "null", none⟩ 0 none = [iss] ∧
      iss.issue_type = "invalid_integer" ∧ iss.severity = "error" ∧
      iss.actual_value = some "None" ∧ iss.row_number = some 2) :=
  ⟨(c10_none_cell (fun _ _ => none) "listing_uuid"
      ⟨"listing_uuid", DataType.UUID, true, false, none, none⟩ 0).1 rfl rfl,
   ((c10_none_cell (fun _ _ => none) "total_reviews"
      ⟨"total_reviews", DataType.INTEGER, true, true, some "null", none⟩ 0).2
      (by simp)).2 rfl⟩

/-- C1: for every validated file (all three branches of
`validate_file`), `is_valid` is true exactly when no stored issue has
severity `error`, and each derived count equals the number of stored
issues of its severity (the counts are derived functions over
`issues`, not stored fields). -/
theorem c1_result_counts (reMatch : String → String → Option Bool)
    (schema : List SchemaField) (reqOrder commonOrder : List String)
    (file_path schema_name : String) (out : FileOutcome) :
    let r := validate_file reMatch schema reqOrder commonOrder file_path schema_name out
    (r.is_valid = true ↔ ∀ iss ∈ r.issues, iss.severity ≠ "error")
    ∧ r.error_count = r.issues.countP (fun i => i.severity == "error")
    ∧ r.warning_count = r.issues.countP (fun i => i.severity == "warning")
    ∧ r.info_count = r.issues.countP (fun i => i.severity == "info") := by
  intro r
  refine ⟨?_, ?_, ?_, ?_⟩
  · cases out with
    | notFound => simp [r, validate_file]
    | parseFailure msg => simp [r, validate_file]
    | parsed cols rows =>
      simp [r, validate_file, validate_parsed, List.length_eq_zero,
        List.filter_eq_nil_iff]
      constructor
      · rintro ⟨h1, h2, h3⟩ iss (⟨a, ha, rfl⟩ | ⟨a, ha, rfl⟩ | h)
        exacts [h1 a ha, h2 a ha, h3 iss h]
      · intro h
        exact ⟨fun a ha => h _ (Or.inl ⟨a, ha, rfl⟩),
          fun a ha => h _ (Or.inr (Or.inl ⟨a, ha, rfl⟩)),
          fun iss hm => h _ (Or.inr (Or.inr hm))⟩
  · rw [ValidationResult.error_count, List.countP_eq_length_filter]
  · rw [ValidationResult.warning_count, List.countP_eq_length_filter]
  · rw [ValidationResult.info_count, List.countP_eq_length_filter]

/-- Helper: an element of a list is in its `dropWhile` remainder or
satisfies the dropped predicate. -/
theorem mem_dropWhile_or {p : Char → Bool} {cs : List Char} {x : Char}
    (hx : x ∈ cs) : x ∈ cs.dropWhile p ∨ p x = true := by
  rw [← List.takeWhile_append_dropWhile (p := p) (l := cs)] at hx
  rcases List.mem_append.mp hx with h | h
  · exact Or.inr (List.mem_takeWhile_imp h)
  · exact Or.inl h

/-- Helper: an element of a list survives `stripList` or satisfies the
stripped predicate. -/
theorem mem_stripList_or {p : Char → Bool} {cs : List Char} {x : Char}
    (hx : x ∈ cs) : x ∈ stripList p cs ∨ p x = true := by
  rcases mem_dropWhile_or (p := p) hx with h | h
  · rw [← List.mem_reverse] at h
    rcases mem_dropWhile_or (p := p) h with h' | h'
    · exact Or.inl (List.mem_reverse.mpr h')
    · exact Or.inr h'
  · exact Or.inr h

/-- Helper: `dropWhile` is the identity when no element satisfies `p`. -/
theorem dropWhile_all_false {p : Char → Bool} :
    ∀ {cs : List Char}, (∀ c ∈ cs, p c = false) → cs.dropWhile p = cs
  | [], _ => rfl
  | c :: rest, h => by
    have hc := h c (List.mem_cons_self c rest)
    simp [List.dropWhile_cons, hc]

/-- Helper: `stripList` is the identity when no element satisfies `p`. -/
theorem stripList_eq_self {p : Char → Bool} {cs : List Char}
    (h : ∀ c ∈ cs, p c = false) : stripList p cs = cs := by
  unfold stripList
  rw [dropWhile_all_false h]
  rw [dropWhile_all_false (fun c hc => h c (List.mem_reverse.mp hc))]
  exact List.reverse_reverse cs

/-- Helper: every character of a valid digit-group tail is a digit or
an underscore. -/
theorem digitsURest_chars {isD : Char → Bool} {cs : List Char}
    (h : digitsURest isD cs = true) : ∀ c ∈ cs, isD c = true ∨ c = '_' := by
  induction cs using digitsURest.induct isD with
  | case1 => intro c hc; cases hc
  | case2 c hu => rw [digitsURest.eq_def] at h; simp [hu] at h
  | case3 c hu c1 cs' ih =>
    rw [digitsURest.eq_def] at h
    simp [hu] at h
    intro x hx
    rcases List.mem_cons.mp hx with rfl | hx'
    · exact Or.inr (by simpa using hu)
    · rcases List.mem_cons.mp hx' with rfl | hx''
      · exact Or.inl h.1
      · exact ih h.2 x hx''
  | case4 c cs' hnu ih =>
    rw [digitsURest.eq_def] at h
    simp only [Bool.not_eq_true] at hnu
    simp [hnu] at h
    intro x hx
    rcases List.mem_cons.mp hx with rfl | hx'
    · exact Or.inl h.1
    · exact ih h.2 x hx'

/-- Helper: a list of digit-alphabet characters, none an underscore,
is a valid digit-group tail. -/
theorem digitsURest_of_forall {isD : Char → Bool} :
    ∀ {cs : List Char}, (∀ c ∈ cs, isD c = true ∧ (c == '_') = false) →
      digitsURest isD cs = true
  | [], _ => rfl
  | c :: rest, h => by
    have hc := h c (List.mem_cons_self c rest)
    have hrest : digitsURest isD rest = true :=
      digitsURest_of_forall (fun c' hc' => h c' (List.mem_cons_of_mem _ hc'))
    rw [digitsURest.eq_def]
    simp [hc.1, hc.2, hrest]

/-- Helper: `dropSign` either leaves the list unchanged or removes one
leading `+` or `-`. -/
theorem dropSign_cases (cs : List Char) :
    (dropSign cs).2 = cs ∨
      ∃ c, cs = c :: (dropSign cs).2 ∧ (c = '+' ∨ c = '-') := by
  match cs with
  | [] => exact Or.inl rfl
  | c :: r =>
    by_cases hp : c = '+'
    · subst hp; exact Or.inr ⟨'+', by simp [dropSign], Or.inl rfl⟩
    · by_cases hm : c = '-'
      · subst hm; exact Or.inr ⟨'-', by simp [dropSign], Or.inr rfl⟩
      · refine Or.inl ?_
        have hp' : (c == '+') = false := beq_eq_false_iff_ne.mpr hp
        have hm' : (c == '-') = false := beq_eq_false_iff_ne.mpr hm
        simp [dropSign, hp', hm']

/-- Helper: `dropSign` does not touch a list whose head is neither
sign character. -/
theorem dropSign_of_head {c : Char} {r : List Char}
    (hp : (c == '+') = false) (hm : (c == '-') = false) :
    dropSign (c :: r) = (false, c :: r) := by
  simp [dropSign, hp, hm]

/-- Helper: a decimal digit is not Python whitespace. -/
theorem ws_false_of_digit {c : Char} (h : c.isDigit = true) : isPyWs c = false := by
  have hv : 48 ≤ c.val ∧ c.val ≤ 57 := by
    simpa [Char.isDigit, ge_iff_le, Bool.and_eq_true, decide_eq_true_eq] using h
  have key : ∀ d : Char, ¬(48 ≤ d.val ∧ d.val ≤ 57) → (c == d) = false :=
    fun d hd => beq_eq_false_iff_ne.mpr (fun hcd => hd (hcd ▸ hv))
  simp [isPyWs, key ' ' (by decide), key '\t' (by decide), key '\n' (by decide),
    key '\r' (by decide), key '\x0b' (by decide), key '\x0c' (by decide)]

/-- Helper: every character of a valid digit group is in the digit
alphabet or an underscore. -/
theorem digitsU_chars {isD : Char → Bool} {cs : List Char}
    (h : digitsU isD cs = true) : ∀ c ∈ cs, isD c = true ∨ c = '_' := by
  match cs with
  | [] => intro c hc; cases hc
  | c :: rest =>
    rw [digitsU, Bool.and_eq_true] at h
    intro x hx
    rcases List.mem_cons.mp hx with rfl | hx'
    · exact Or.inl h.1
    · exact digitsURest_chars h.2 x hx'

/-- Helper: `splitOnChar` never returns the empty list of groups. -/
theorem splitOnChar_ne_nil (c : Char) : ∀ cs : List Char, splitOnChar c cs ≠ [] := by
  intro cs
  match cs with
  | [] => simp [splitOnChar]
  | x :: xs =>
    rw [splitOnChar]
    cases h : splitOnChar c xs with
    | nil => simp
    | cons g gs =>
      by_cases hx : (x == c) = true <;> simp [hx]

/-- Helper: unfolding equation of `splitOnChar` at a separator. -/
theorem splitOnChar_cons_self (c : Char) {xs : List Char} {g : List Char}
    {gs : List (List Char)} (hsp : splitOnChar c xs = g :: gs) :
    splitOnChar c (c :: xs) = [] :: g :: gs := by
  rw [splitOnChar, hsp]
  simp

/-- Helper: unfolding equation of `splitOnChar` at a non-separator. -/
theorem splitOnChar_cons_ne (c x : Char) (hx : (x == c) = false) {xs : List Char}
    {g : List Char} {gs : List (List Char)} (hsp : splitOnChar c xs = g :: gs) :
    splitOnChar c (x :: xs) = (x :: g) :: gs := by
  rw [splitOnChar, hsp]
  simp [hx]

/-- Helper: unfolding equation of the digit-group tail at a leading
underscore followed by another character. -/
theorem digitsURest_underscore (isD : Char → Bool) (c1 : Char) (cs' : List Char) :
    digitsURest isD ('_' :: c1 :: cs') = (isD c1 && digitsURest isD cs') := rfl

/-- Helper: a single trailing underscore is not a valid digit-group
tail. -/
theorem digitsURest_underscore_nil (isD : Char → Bool) :
    digitsURest isD ['_'] = false := rfl

/-- Helper: unfolding equation of the digit-group tail at a
non-underscore character. -/
theorem digitsURest_cons_ne (isD : Char → Bool) {c : Char}
    (hcb : (c == '_') = false) (cs' : List Char) :
    digitsURest isD (c :: cs') = (isD c && digitsURest isD cs') := by
  rw [digitsURest.eq_def]
  simp only [hcb, Bool.false_eq_true, if_false]

/-- Helper: the digit-group tail grammar, expressed through splitting
on underscores: the group open at the left may be empty, every later
group must be a nonempty digit run. -/
theorem digitsURest_split {isD : Char → Bool} (hu : isD '_' = false) :
    ∀ (cs : List Char) {g : List Char} {gs : List (List Char)},
      splitOnChar '_' cs = g :: gs →
      digitsURest isD cs =
        (g.all isD && gs.all (fun t => !t.isEmpty && t.all isD)) := by
  intro cs
  induction cs using digitsURest.induct isD with
  | case1 =>
    intro g gs h
    simp only [splitOnChar, List.cons.injEq] at h
    obtain ⟨h1, h2⟩ := h
    subst h1
    subst h2
    rfl
  | case2 c hcu =>
    intro g gs h
    have hce : c = '_' := by simpa using hcu
    subst hce
    rw [splitOnChar_cons_self '_' (show splitOnChar '_' [] = [] :: [] from rfl)] at h
    injection h with h1 h2
    subst h1
    subst h2
    rw [digitsURest_underscore_nil]
    rfl
  | case3 c hcu c1 cs' ih =>
    intro g gs h
    have hce : c = '_' := by simpa using hcu
    subst hce
    by_cases hc1 : (c1 == '_') = true
    · have hc1e : c1 = '_' := by simpa using hc1
      subst hc1e
      cases hsp : splitOnChar '_' cs' with
      | nil => exact absurd hsp (splitOnChar_ne_nil _ _)
      | cons g2 gs2 =>
        rw [splitOnChar_cons_self '_' (splitOnChar_cons_self '_' hsp)] at h
        injection h with h1 h2
        subst h1
        subst h2
        rw [digitsURest_underscore, hu]
        rfl
    · have hc1b : (c1 == '_') = false := by rwa [Bool.not_eq_true] at hc1
      cases hsp : splitOnChar '_' cs' with
      | nil => exact absurd hsp (splitOnChar_ne_nil _ _)
      | cons g2 gs2 =>
        rw [splitOnChar_cons_self '_' (splitOnChar_cons_ne '_' c1 hc1b hsp)] at h
        injection h with h1 h2
        subst h1
        subst h2
        rw [digitsURest_underscore, ih hsp]
        simp [Bool.and_assoc]
  | case4 c cs' hcn ih =>
    intro g gs h
    have hcb : (c == '_') = false := by rwa [Bool.not_eq_true] at hcn
    cases hsp : splitOnChar '_' cs' with
    | nil => exact absurd hsp (splitOnChar_ne_nil _ _)
    | cons g2 gs2 =>
      rw [splitOnChar_cons_ne '_' c hcb hsp] at h
      injection h with h1 h2
      subst h1
      subst h2
      rw [digitsURest_cons_ne isD hcb, ih hsp]
      simp [Bool.and_assoc]

/-- Helper: the whole digit-group grammar equals the split-on-
underscore characterization: every group, the first included, is a
nonempty digit run. -/
theorem digitsU_split {isD : Char → Bool} (hu : isD '_' = false) (cs : List Char) :
    digitsU isD cs =
      (splitOnChar '_' cs).all (fun g => !g.isEmpty && g.all isD) := by
  cases cs with
  | nil => rfl
  | cons x xs =>
    cases hsp : splitOnChar '_' xs with
    | nil => exact absurd hsp (splitOnChar_ne_nil _ _)
    | cons g gs =>
      by_cases hx : (x == '_') = true
      · have hxe : x = '_' := by simpa using hx
        subst hxe
        rw [digitsU, hu, splitOnChar_cons_self '_' hsp]
        simp
      · have hxb : (x == '_') = false := by rwa [Bool.not_eq_true] at hx
        rw [digitsU, digitsURest_split hu xs hsp, splitOnChar_cons_ne '_' x hxb hsp]
        simp [Bool.and_assoc]

/-- Helper: the boolean outcome of the modelled `int()` is exactly its
grammar-and-limit condition. -/
theorem pyIntVal_isSome_eq (s : String) {ds : List Char} {neg : Bool}
    (h : dropSign (stripList isPyWs s.data) = (neg, ds)) :
    (pyIntVal s).isSome =
      (digitsU Char.isDigit ds &&
        decide ((ds.filter (fun c => c != '_')).length ≤ 4300)) := by
  rw [pyIntVal, h]
  cases hA : (digitsU Char.isDigit ds &&
      decide ((ds.filter (fun c => c != '_')).length ≤ 4300)) <;> simp [hA]

/-- Helper: every character of `replicate n '1'` is the digit `1`. -/
theorem replicate_one_mem {n : Nat} {c : Char}
    (hc : c ∈ List.replicate n '1') : c = '1' :=
  List.eq_of_mem_replicate hc

/-- Helper: the 4301-digit run is rejected by the modelled `int()`
because of the 4300-digit conversion limit (the digit-group check is
never consulted: the length conjunct alone is false). -/
theorem intLimit_replicate :
    is_valid_integer (String.mk (List.replicate 4301 '1')) = false := by
  have hdata : (String.mk (List.replicate 4301 '1')).data =
      List.replicate 4301 '1' := rfl
  have hrep : ∀ c ∈ List.replicate 4301 '1', isPyWs c = false := by
    intro c hc
    rw [replicate_one_mem hc]
    decide
  have hstrip : stripList isPyWs (List.replicate 4301 '1') =
      List.replicate 4301 '1' := stripList_eq_self hrep
  have hcons : List.replicate 4301 '1' = '1' :: List.replicate 4300 '1' := rfl
  have hds : dropSign (stripList isPyWs
      (String.mk (List.replicate 4301 '1')).data) =
      (false, '1' :: List.replicate 4300 '1') := by
    rw [hdata, hstrip, hcons]
    exact dropSign_of_head (by decide) (by decide)
  have hfilter : List.filter (fun c => c != '_') ('1' :: List.replicate 4300 '1') =
      '1' :: List.replicate 4300 '1' := by
    refine List.filter_eq_self.mpr ?_
    intro a ha
    rcases List.mem_cons.mp ha with rfl | ha2
    · decide
    · rw [replicate_one_mem ha2]
      decide
  have hlen : ('1' :: List.replicate 4300 '1').length = 4301 := by
    rw [List.length_cons, List.length_replicate]
  rw [is_valid_integer, pyIntVal_isSome_eq _ hds, hfilter, hlen,
    show (decide ((4301 : Nat) ≤ 4300)) = false from rfl, Bool.and_false]

/-- Helper: the 4301-digit run is inside the claim grammar (an
optional sign followed by base-10 digits). -/
theorem intClaim_replicate :
    intClaimGrammar (String.mk (List.replicate 4301 '1')) = true := by
  have hdata : (String.mk (List.replicate 4301 '1')).data =
      List.replicate 4301 '1' := rfl
  have hcons : List.replicate 4301 '1' = '1' :: List.replicate 4300 '1' := rfl
  rw [intClaimGrammar, hdata, hcons, dropSign_of_head (by decide) (by decide)]
  simp only [List.all_eq_true, List.isEmpty_cons, Bool.not_false, Bool.true_and]
  intro a ha
  rcases List.mem_cons.mp ha with rfl | ha2
  · decide
  · rw [replicate_one_mem ha2]
    decide

/-- C7 counterexample: Python `int()` accepts underscore digit
separators, so the checker accepts `1_000`, which the claim's
sign-then-digits grammar rejects; conversely, a run of 4301 digits is
inside the claim's grammar but rejected by the checker (CPython's
4300-digit conversion limit raises `ValueError`, turned into `False`). -/
theorem c7_counterexample :
    is_valid_integer "1_000" = true ∧ intClaimGrammar "1_000" = false ∧
    is_valid_integer (String.mk (List.replicate 4301 '1')) = false ∧
    intClaimGrammar (String.mk (List.replicate 4301 '1')) = true :=
  ⟨by decide, by decide, intLimit_replicate, intClaim_replicate⟩

/-- C7 amended: the Integer checker agrees exactly with the amended
grammar — after surrounding whitespace and one optional sign, nonempty
all-digit groups joined by single underscores (each underscore
strictly between two digits), at most 4300 digits in total — and in
particular nothing containing a decimal point or a comma, or any
character beyond whitespace, sign, digits and underscores, is ever
accepted. -/
theorem c7_amended (v : String) :
    is_valid_integer v = intAmendedGrammar v
    ∧ (is_valid_integer v = true → ('.' ∉ v.data ∧ ',' ∉ v.data))
    ∧ (is_valid_integer v = true →
        ∀ c ∈ v.data, isPyWs c = true ∨ c = '+' ∨ c = '-' ∨ c.isDigit = true ∨ c = '_') := by
  have classify : is_valid_integer v = true →
      ∀ c ∈ v.data, isPyWs c = true ∨ c = '+' ∨ c = '-' ∨ c.isDigit = true ∨ c = '_' := by
    intro h c hc
    rw [is_valid_integer, pyIntVal] at h
    by_cases hd : digitsU Char.isDigit (dropSign (stripList isPyWs v.data)).2 = true
    · rcases mem_stripList_or (p := isPyWs) hc with hmem | hws
      · rcases dropSign_cases (stripList isPyWs v.data) with heq | ⟨s, heq, hsgn⟩
        · rw [heq] at hd
          have := digitsU_chars hd c hmem
          tauto
        · rw [heq] at hmem
          rcases List.mem_cons.mp hmem with rfl | hmem2
          · tauto
          · have := digitsU_chars hd c hmem2
            tauto
      · exact Or.inl hws
    · simp [hd] at h
  have heq : is_valid_integer v = intAmendedGrammar v := by
    rw [is_valid_integer, pyIntVal, intAmendedGrammar]
    simp only [digitsU_split (show Char.isDigit '_' = false by decide)]
    rcases hds : dropSign (stripList isPyWs v.data) with ⟨neg, ds⟩
    simp only [hds]
    cases hA : ((splitOnChar '_' ds).all (fun g => !g.isEmpty && g.all Char.isDigit) &&
        decide ((ds.filter (fun c => c != '_')).length ≤ 4300)) <;> simp [hA]
  refine ⟨heq, fun h => ?_, classify⟩
  constructor
  · intro hdot
    rcases classify h '.' hdot with hx | hx | hx | hx | hx <;>
      exact absurd hx (by decide)
  · intro hcom
    rcases classify h ',' hcom with hx | hx | hx | hx | hx <;>
      exact absurd hx (by decide)

/-- Witness for `c7_amended`: the grammar equation evaluated at the
underscore-grouped value `1_000`, and the accepted string `77`
contains no separator. -/
theorem c7_witness :
    is_valid_integer "1_000" = true ∧ ('.' ∉ "77".data ∧ ',' ∉ "77".data) :=
  ⟨(c7_amended "1_000").1.trans (by decide),
   (c7_amended "77").2.1 (by decide)⟩

/-- Helper: a successful `hexSeg n` consumed exactly `n` leading hex
digits. -/
theorem hexSeg_some :
    ∀ {n : Nat} {cs r : List Char}, hexSeg n cs = some r →
      ∃ p, cs = p ++ r ∧ p.length = n ∧ ∀ c ∈ p, isHexDigitC c = true := by
  intro n
  induction n with
  | zero =>
    intro cs r h
    rw [hexSeg] at h
    exact ⟨[], by simpa using h.symm.symm, rfl, fun c hc => by cases hc⟩
  | succ m ih =>
    intro cs r h
    match cs with
    | [] => rw [hexSeg] at h; cases h
    | c :: rest =>
      rw [hexSeg] at h
      by_cases hc : isHexDigitC c = true
      · rw [if_pos hc] at h
        obtain ⟨p, hp1, hp2, hp3⟩ := ih h
        refine ⟨c :: p, by simp [hp1], by simp [hp2], ?_⟩
        intro x hx
        rcases List.mem_cons.mp hx with rfl | hx'
        · exact hc
        · exact hp3 x hx'
      · rw [if_neg hc] at h; cases h

/-- Helper: deleting a pattern that contains a character absent from
the subject list leaves the list unchanged. -/
theorem pyReplaceDelAux_eq_self {pat : List Char} {c : Char} (hc : c ∈ pat) :
    ∀ {fuel : Nat} {cs : List Char}, c ∉ cs → pyReplaceDelAux pat fuel cs = cs := by
  intro fuel
  induction fuel with
  | zero =>
    intro cs _
    match cs with
    | [] => rfl
    | x :: rest => rfl
  | succ f ih =>
    intro cs hn
    match cs with
    | [] => rfl
    | x :: rest =>
      rw [pyReplaceDelAux]
      have hpre : pat.isPrefixOf (x :: rest) = false := by
        by_contra hp
        rw [Bool.not_eq_false] at hp
        exact hn ((List.isPrefixOf_iff_prefix.mp hp).subset hc)
      rw [hpre]
      simp only [Bool.and_false, Bool.false_eq_true, if_false]
      rw [ih (fun hm => hn (List.mem_cons_of_mem _ hm))]

/-- Helper: the total `pyReplaceDel` version of
`pyReplaceDelAux_eq_self`. -/
theorem pyReplaceDel_eq_self {pat cs : List Char} {c : Char}
    (hc : c ∈ pat) (hn : c ∉ cs) : pyReplaceDel pat cs = cs :=
  pyReplaceDelAux_eq_self hc hn

/-- Helper: a hex digit differs from any character whose code point is
outside the three hex-digit ranges. -/
theorem hex_char_ne {c : Char} (h : isHexDigitC c = true) (d : Char)
    (hd : ¬((48 ≤ d.val ∧ d.val ≤ 57) ∨ (97 ≤ d.val ∧ d.val ≤ 102) ∨
            (65 ≤ d.val ∧ d.val ≤ 70))) :
    (c == d) = false := by
  have hv : (48 ≤ c.val ∧ c.val ≤ 57) ∨ (97 ≤ c.val ∧ c.val ≤ 102) ∨
      (65 ≤ c.val ∧ c.val ≤ 70) := by
    have := by
      simpa [isHexDigitC, Char.isDigit, Char.le_def, ge_iff_le, Bool.or_eq_true,
        Bool.and_eq_true, decide_eq_true_eq] using h
    tauto
  exact beq_eq_false_iff_ne.mpr (fun hcd => hd (hcd ▸ hv))

/-- Helper: a hex digit is not Python whitespace. -/
theorem ws_false_of_hex {c : Char} (h : isHexDigitC c = true) : isPyWs c = false := by
  simp [isPyWs, hex_char_ne h ' ' (by decide), hex_char_ne h '\t' (by decide),
    hex_char_ne h '\n' (by decide), hex_char_ne h '\r' (by decide),
    hex_char_ne h '\x0b' (by decide), hex_char_ne h '\x0c' (by decide)]

/-- Helper: `uuid.UUID` accepts any characters arranged as five hex
segments of lengths 8-4-4-4-12 joined by hyphens: the prefix deletions
and brace strip find nothing, hyphen removal leaves 32 hex digits, and
`int(hex, 16)` accepts them. -/
theorem pyUuid_canonical_core {A B C D E : List Char}
    (hlA : A.length = 8) (hlB : B.length = 4) (hlC : C.length = 4)
    (hlD : D.length = 4) (hlE : E.length = 12)
    (hxA : ∀ c ∈ A, isHexDigitC c = true) (hxB : ∀ c ∈ B, isHexDigitC c = true)
    (hxC : ∀ c ∈ C, isHexDigitC c = true) (hxD : ∀ c ∈ D, isHexDigitC c = true)
    (hxE : ∀ c ∈ E, isHexDigitC c = true) (s : String)
    (hs : s.data = A ++ '-' :: (B ++ '-' :: (C ++ '-' :: (D ++ '-' :: E)))) :
    is_valid_uuid s = true := by
  have hall : ∀ x ∈ s.data, isHexDigitC x = true ∨ x = '-' := by
    intro x hx
    rw [hs] at hx
    simp only [List.mem_append, List.mem_cons] at hx
    rcases hx with hx | hx | hx | hx | hx | hx | hx | hx | hx
    · exact Or.inl (hxA x hx)
    · exact Or.inr hx
    · exact Or.inl (hxB x hx)
    · exact Or.inr hx
    · exact Or.inl (hxC x hx)
    · exact Or.inr hx
    · exact Or.inl (hxD x hx)
    · exact Or.inr hx
    · exact Or.inl (hxE x hx)
  have hcolon : (':' : Char) ∉ s.data := by
    intro hmem
    rcases hall ':' hmem with hh | hh
    · exact absurd hh (by decide)
    · exact absurd hh (by decide)
  have h1 : pyReplaceDel "urn:".data s.data = s.data :=
    pyReplaceDel_eq_self (c := ':') (by decide) hcolon
  have h2 : pyReplaceDel "uuid:".data s.data = s.data :=
    pyReplaceDel_eq_self (c := ':') (by decide) hcolon
  have h3 : stripList (fun c => c == '\x7b' || c == '\x7d') s.data = s.data := by
    refine stripList_eq_self ?_
    intro c hcm
    rcases hall c hcm with hh | rfl
    · simp [hex_char_ne hh '\x7b' (by decide), hex_char_ne hh '\x7d' (by decide)]
    · decide
  have hfilter : ∀ S : List Char, (∀ c ∈ S, isHexDigitC c = true) →
      S.filter (fun c => c != '-') = S := by
    intro S hS
    refine List.filter_eq_self.mpr ?_
    intro a ha
    simp [bne, hex_char_ne (hS a ha) '-' (by decide)]
  have h4 : s.data.filter (fun c => c != '-') = A ++ (B ++ (C ++ (D ++ E))) := by
    rw [hs]
    simp only [List.filter_append, List.filter_cons]
    have hself : (('-' : Char) != '-') = false := by decide
    simp only [hself, Bool.false_eq_true, if_false]
    rw [hfilter A hxA, hfilter B hxB, hfilter C hxC, hfilter D hxD, hfilter E hxE]
  have hex_all : ∀ c ∈ A ++ (B ++ (C ++ (D ++ E))), isHexDigitC c = true := by
    intro c hcm
    simp only [List.mem_append] at hcm
    rcases hcm with h | h | h | h | h
    exacts [hxA c h, hxB c h, hxC c h, hxD c h, hxE c h]
  obtain ⟨a0, a1, A', hAeq⟩ : ∃ a0 a1 A', A = a0 :: a1 :: A' := by
    match A, hlA with
    | a0 :: a1 :: A', _ => exact ⟨a0, a1, A', rfl⟩
  have hMeq : A ++ (B ++ (C ++ (D ++ E))) = a0 :: a1 :: (A' ++ (B ++ (C ++ (D ++ E)))) := by
    rw [hAeq]; rfl
  have ha0 : isHexDigitC a0 = true :=
    hex_all a0 (by rw [hMeq]; exact List.mem_cons_self _ _)
  have ha1 : isHexDigitC a1 = true :=
    hex_all a1 (by rw [hMeq]; exact List.mem_cons_of_mem _ (List.mem_cons_self _ _))
  have hok : pyHex16Ok (A ++ (B ++ (C ++ (D ++ E)))) = true := by
    rw [pyHex16Ok]
    rw [stripList_eq_self (fun c hcm => ws_false_of_hex (hex_all c hcm))]
    rw [hMeq]
    rw [dropSign_of_head (hex_char_ne ha0 '+' (by decide)) (hex_char_ne ha0 '-' (by decide))]
    show digitsU isHexDigitC (hexBody (a0 :: a1 :: (A' ++ (B ++ (C ++ (D ++ E)))))) = true
    have hbody : hexBody (a0 :: a1 :: (A' ++ (B ++ (C ++ (D ++ E))))) =
        a0 :: a1 :: (A' ++ (B ++ (C ++ (D ++ E)))) := by
      simp [hexBody, hex_char_ne ha1 'x' (by decide), hex_char_ne ha1 'X' (by decide)]
    rw [hbody]
    rw [digitsU, ha0, Bool.true_and]
    refine digitsURest_of_forall ?_
    intro c hcm
    have hhex : isHexDigitC c = true := by
      refine hex_all c ?_
      rw [hMeq]
      exact List.mem_cons_of_mem _ hcm
    exact ⟨hhex, hex_char_ne hhex '_' (by decide)⟩
  have hlen : (A ++ (B ++ (C ++ (D ++ E)))).length = 32 := by
    simp [hlA, hlB, hlC, hlD, hlE]
  rw [is_valid_uuid]
  simp only [pyUuidParse, h1, h2, h3, h4, hlen, hok]
  rfl

/-- C5 counterexample: the checker (`uuid.UUID`) accepts the
unhyphenated 32-hex spelling, which is not in the canonical
hyphenated 8-4-4-4-12 form, so `accepts iff canonical` fails. -/
theorem c5_counterexample :
    is_valid_uuid "123e4567e89b12d3a456426614174000" = true ∧
    isCanonicalUuid "123e4567e89b12d3a456426614174000" = false :=
  ⟨by decide, by decide⟩

/-- C5 amended: the UUID checker accepts every string in canonical
hyphenated 8-4-4-4-12 hex form, but it does not reject all other
strings: Python `uuid.UUID` also accepts alternative spellings such as
the 32 hex digits without hyphens. -/
theorem c5_amended :
    (∀ s : String, isCanonicalUuid s = true → is_valid_uuid s = true)
    ∧ (∃ s : String, isCanonicalUuid s = false ∧ is_valid_uuid s = true) := by
  constructor
  · intro s hc
    rw [isCanonicalUuid] at hc
    split at hc
    case _ r1 heq8 =>
      split at hc
      case _ r2 heq4a =>
        split at hc
        case _ r3 heq4b =>
          split at hc
          case _ r4 heq4c =>
            split at hc
            case _ heq12 =>
              obtain ⟨A, hA, hlA, hxA⟩ := hexSeg_some heq8
              obtain ⟨B, hB, hlB, hxB⟩ := hexSeg_some heq4a
              obtain ⟨C, hC, hlC, hxC⟩ := hexSeg_some heq4b
              obtain ⟨D, hD, hlD, hxD⟩ := hexSeg_some heq4c
              obtain ⟨E, hE, hlE, hxE⟩ := hexSeg_some heq12
              rw [List.append_nil] at hE
              rw [hE] at hD
              rw [hD] at hC
              rw [hC] at hB
              rw [hB] at hA
              exact pyUuid_canonical_core hlA hlB hlC hlD hlE hxA hxB hxC hxD hxE s hA
            case _ => cases hc
          case _ => cases hc
        case _ => cases hc
      case _ => cases hc
    case _ => cases hc
  · exact ⟨"123e4567e89b12d3a456426614174000", by decide, by decide⟩

/-- Witness for `c5_amended`: a concrete canonical UUID from the
schema examples is accepted by the checker. -/
theorem c5_witness : is_valid_uuid "0340c9fb-bb41-4f5b-8dad-9dec16e2aec8" = true :=
  c5_amended.1 "0340c9fb-bb41-4f5b-8dad-9dec16e2aec8" (by decide)

/-- Helper: every issue emitted by the per-value dispatch carries the
row number it was called with. -/
theorem validate_single_value_row {reMatch : String → String → Option Bool}
    {cn v : String} {f : SchemaField} {rn : Nat} :
    ∀ iss ∈ validate_single_value reMatch cn v f rn, iss.row_number = some rn := by
  intro iss h
  rw [validate_single_value] at h
  split at h
  · cases h
  · split at h <;>
      first
      | cases h
      | (split at h
         · rw [List.mem_singleton] at h
           subst h
           rfl
         · cases h)

/-- Helper: every issue emitted for the cell at row index `i` carries
row number `i + 2`. -/
theorem cell_issues_row {reMatch : String → String → Option Bool}
    {cn : String} {f : SchemaField} {i : Nat} {v : Option String} :
    ∀ iss ∈ cell_issues reMatch cn f i v, iss.row_number = some (i + 2) := by
  intro iss h
  rw [cell_issues] at h
  split at h
  · rw [List.mem_singleton] at h
    subst h
    rfl
  · dsimp only [] at h
    split at h
    · cases h
    · exact validate_single_value_row iss h

/-- Helper: the index components of `enumFrom` are strictly
increasing. -/
theorem pairwise_fst_lt_enumFrom {α : Type} :
    ∀ (l : List α) (n : Nat), (l.enumFrom n).Pairwise (fun p q => p.1 < q.1) := by
  intro l
  induction l with
  | nil => intro n; exact List.Pairwise.nil
  | cons x xs ih =>
    intro n
    rw [List.enumFrom]
    refine List.Pairwise.cons ?_ (ih (n + 1))
    intro q hq
    have := (List.mem_enumFrom hq).1
    omega

/-- Helper: a list whose elements all share one row key is pairwise
nondecreasing in that key. -/
theorem pairwise_row_of_const {l : List ValidationIssue} {c : Nat}
    (h : ∀ x ∈ l, x.row_number = some c) :
    l.Pairwise (fun a b => a.row_number.getD 0 ≤ b.row_number.getD 0) := by
  induction l with
  | nil => exact List.Pairwise.nil
  | cons x xs ih =>
    refine List.Pairwise.cons ?_ (ih (fun y hy => h y (List.mem_cons_of_mem _ hy)))
    intro y hy
    rw [h x (List.mem_cons_self _ _), h y (List.mem_cons_of_mem _ hy)]

/-- Helper: within one column, emitted issues appear in nondecreasing
row order (cells are visited in file order). -/
theorem validate_column_data_sorted (reMatch : String → String → Option Bool)
    (cn : String) (column_data : List (Option String)) (f : SchemaField) :
    (validate_column_data reMatch cn column_data f).Pairwise
      (fun a b => a.row_number.getD 0 ≤ b.row_number.getD 0) := by
  rw [validate_column_data]
  rw [List.pairwise_flatten]
  constructor
  · intro bl hbl
    rw [List.mem_map] at hbl
    obtain ⟨p, _, rfl⟩ := hbl
    exact pairwise_row_of_const (fun x hx => cell_issues_row x hx)
  · rw [List.pairwise_map]
    have base := pairwise_fst_lt_enumFrom column_data 0
    rw [List.enum]
    refine base.imp ?_
    intro p q hpq x hx y hy
    rw [cell_issues_row x hx, cell_issues_row y hy]
    simp only [Option.getD_some]
    omega

/-- C3 counterexample: with the admissible set-iteration order
`["beta", "alpha"]` of the required-columns set of a two-field schema,
the missing-column issues come out in that order, not in schema
declaration order `["alpha", "beta"]` — the order of the Python set
iteration, which string-hash randomization makes arbitrary, is what
the output follows. -/
theorem c3_counterexample :
    setEnumOk ((([⟨"alpha", DataType.STRING, true, true, none, none⟩,
        ⟨"beta", DataType.STRING, true, true, none, none⟩] : List SchemaField).filter
          (fun f => f.required)).map (fun f => f.name)) ["beta", "alpha"] = true ∧
    (validate_parsed (fun _ _ => none)
        [⟨"alpha", DataType.STRING, true, true, none, none⟩,
         ⟨"beta", DataType.STRING, true, true, none, none⟩]
        ["beta", "alpha"] [] "f.csv" "s" [] []).missing_columns = ["beta", "alpha"] ∧
    (validate_parsed (fun _ _ => none)
        [⟨"alpha", DataType.STRING, true, true, none, none⟩,
         ⟨"beta", DataType.STRING, true, true, none, none⟩]
        ["beta", "alpha"] [] "f.csv" "s" [] []).issues =
      [missingColumnIssue "beta", missingColumnIssue "alpha"] ∧
    ["beta", "alpha"] ≠
      (([⟨"alpha", DataType.STRING, true, true, none, none⟩,
         ⟨"beta", DataType.STRING, true, true, none, none⟩] : List SchemaField).filter
          (fun f => f.required)).map (fun f => f.name) :=
  ⟨by decide, by decide, by decide, by decide⟩

/-- C3 amended: for every successfully parsed file and admissible set
iteration orders, the issue list is the missing-column block, then the
extra-column block, then the data block; the extra columns follow
header order; the missing columns are exactly the required-set
enumeration filtered to the names absent from the header — so each
appears once and they follow the set-iteration order (not necessarily
schema declaration order); the data block is grouped by
the set-iteration order of the header-schema intersection; and within
one column the issues are in file (row) order. -/
theorem c3_amended (reMatch : String → String → Option Bool)
    (schema : List SchemaField) (reqOrder commonOrder : List String)
    (fp sn : String) (cols : List String) (data : List Row)
    (hreq : setEnumOk ((schema.filter (fun f => f.required)).map (fun f => f.name))
      reqOrder = true)
    (hcom : setEnumOk ((dataColumns data).filter
      (fun c => (schemaFieldNames schema).contains c)) commonOrder = true) :
    let r := validate_parsed reMatch schema reqOrder commonOrder fp sn cols data
    r.issues = r.missing_columns.map missingColumnIssue ++
      r.extra_columns.map extraColumnIssue ++
      validate_data_content reMatch schema commonOrder data
    ∧ r.extra_columns = cols.filter (fun c => !(schemaFieldNames schema).contains c)
    ∧ r.missing_columns = reqOrder.filter (fun col => !cols.contains col)
    ∧ r.missing_columns.Nodup
    ∧ (∀ x, x ∈ r.missing_columns ↔
        (x ∈ (schema.filter (fun f => f.required)).map (fun f => f.name) ∧ x ∉ cols))
    ∧ (∀ cn ∈ commonOrder, cn ∈ dataColumns data ∧ cn ∈ schemaFieldNames schema)
    ∧ (∀ cn, (validate_data_content reMatch schema [cn] data).Pairwise
        (fun a b => a.row_number.getD 0 ≤ b.row_number.getD 0)) := by
  intro r
  rw [setEnumOk, Bool.and_eq_true, Bool.and_eq_true] at hreq hcom
  obtain ⟨⟨hr1, hr2⟩, hr3⟩ := hreq
  obtain ⟨⟨hc1, hc2⟩, hc3⟩ := hcom
  have hreqNodup : reqOrder.Nodup := List.dedup_eq_self.mp (eq_of_beq hr3)
  refine ⟨rfl, rfl, rfl, ?_, ?_, ?_, ?_⟩
  · exact hreqNodup.filter _
  · intro x
    show x ∈ reqOrder.filter (fun col => !cols.contains col) ↔ _
    rw [List.mem_filter]
    constructor
    · rintro ⟨hmem, hnc⟩
      refine ⟨List.elem_iff.mp (List.all_eq_true.mp hr1 x hmem), ?_⟩
      intro hxc
      have hcc : cols.contains x = true := List.elem_iff.mpr hxc
      rw [hcc] at hnc
      cases hnc
    · rintro ⟨hmem, hnc⟩
      refine ⟨List.elem_iff.mp (List.all_eq_true.mp hr2 x hmem), ?_⟩
      have hcc : cols.contains x = false := by
        cases hcx : cols.contains x
        · rfl
        · exact absurd (List.elem_iff.mp hcx) hnc
      rw [hcc]
      rfl
  · intro cn hmem
    have hin := List.elem_iff.mp (List.all_eq_true.mp hc1 cn hmem)
    rw [List.mem_filter] at hin
    exact ⟨hin.1, List.elem_iff.mp hin.2⟩
  · intro cn
    rw [validate_data_content]
    have hsing : ([cn].flatMap (fun c =>
        match findField schema c with
        | some f => validate_column_data reMatch c (data.map (fun r => rowGet r c)) f
        | none => [])) =
        (match findField schema cn with
         | some f => validate_column_data reMatch cn (data.map (fun r => rowGet r cn)) f
         | none => []) := by
      simp [List.flatMap]
    rw [hsing]
    split
    · exact validate_column_data_sorted reMatch cn _ _
    · exact List.Pairwise.nil

/-- Witness for `c3_amended` at a concrete schema, header and
admissible enumerations: the extra-column block follows header order,
the missing-column block is the enumeration order filtered to the
absent names, and it is duplicate-free. -/
theorem c3_witness :
    (validate_parsed (fun _ _ => none)
        [⟨"alpha", DataType.STRING, true, true, none, none⟩,
         ⟨"beta", DataType.STRING, true, true, none, none⟩]
        ["beta", "alpha"] [] "f.csv" "s" ["alpha", "gamma"] []).extra_columns =
      ["alpha", "gamma"].filter (fun c => !(schemaFieldNames
        [⟨"alpha", DataType.STRING, true, true, none, none⟩,
         ⟨"beta", DataType.STRING, true, true, none, none⟩]).contains c) ∧
    (validate_parsed (fun _ _ => none)
        [⟨"alpha", DataType.STRING, true, true, none, none⟩,
         ⟨"beta", DataType.STRING, true, true, none, none⟩]
        ["beta", "alpha"] [] "f.csv" "s" ["alpha", "gamma"] []).missing_columns =
      ["beta", "alpha"].filter (fun col => !((["alpha", "gamma"] : List String).contains col)) ∧
    (validate_parsed (fun _ _ => none)
        [⟨"alpha", DataType.STRING, true, true, none, none⟩,
         ⟨"beta", DataType.STRING, true, true, none, none⟩]
        ["beta", "alpha"] [] "f.csv" "s" ["alpha", "gamma"] []).missing_columns.Nodup :=
  have h := c3_amended (fun _ _ => none)
    [⟨"alpha", DataType.STRING, true, true, none, none⟩,
     ⟨"beta", DataType.STRING, true, true, none, none⟩]
    ["beta", "alpha"] [] "f.csv" "s" ["alpha", "gamma"] [] (by decide) (by decide)
  ⟨h.2.1, h.2.2.1, h.2.2.2.1⟩
